import Mathlib

/-!
# Game of Life: verification of `game_of_life.c`

A shallow embedding of `src/game_of_life.c`: the cell-state functions
(`countNeighbors`, `prepareNextGen`, `deployNextGen`, `resetFutureStates`,
`populateMatrix`) with the generation step that the loop of `life` runs, the
seed loader (`initFromFile`, `validateNextChar`), `handleKey`,
`windowSizeCheck`, and the allocation functions (`createMatrix`, `freeMatrix`,
`createLife`).

Modelling conventions
* C `int` values are `Int`.  The only arithmetic the engine performs is
  `cellRow - 1`, `cellRow + 2`, `row++` and `aliveNeighbors++` (at most 8), so
  no `int` expression leaves the 32-bit range as long as `rows` and `cols` are
  below `2^31 - 1`; the program itself only uses 25 x 80.  The delay arithmetic
  of `handleKey`, where the range matters, is reduced to 32 bits.
* A matrix `int **` is a map from (row, column) to the stored `int`.  The
  functions only ever touch cells inside `[0, rows) x [0, cols)`; the value the
  map has elsewhere is never inspected by any statement proved below.  A second
  embedding with every access checked against the bounds shows that no access
  falls outside them.
* `lifeGrid` and `futureStates` are two separate allocations (`createLife`), so
  they are two separate components of the state.
* A `for` loop without `break` is a left fold of its body over the successive
  values of the loop variable; `continue` ends the body for that iteration.  The
  loop of `createMatrix`, which has a `break`, carries a flag that skips the
  remaining iterations.
* The environment (standard input, the keys pressed, the display size, the
  outcome of each `malloc`) enters as explicit arguments.
-/

namespace GameOfLife

/-! ## Constants (lines 17-19 of the source) -/

def FSTATE_DEFAULT : Int := -1
def DEAD : Int := 0
def ALIVE : Int := 1

/-! ## Matrices and loops -/

/-- Contents of an `int **` matrix: the `int` stored at `matrix[row][col]`. -/
abbrev Grid := Int → Int → Int

/-- The assignment `matrix[row][col] = value`. -/
def Grid.set (g : Grid) (row col value : Int) : Grid :=
  fun i j => if i = row ∧ j = col then value else g i j

/-- The loop `for (int i = lo; i < hi; i++) body`, run from state `s`: the body is
executed for `i = lo, lo + 1, ...` as long as `i < hi`. -/
def forLoop {σ : Type} (lo hi : Int) (body : Int → σ → σ) (s : σ) : σ :=
  (List.range (hi - lo).toNat).foldl (fun acc (k : Nat) => body (lo + (k : Int)) acc) s

/-- The two matrices owned by the engine (`life`, lines 72-73). -/
structure Life where
  lifeGrid : Grid
  futureStates : Grid

/-! ## The cell-state functions -/

/-- Source: `populateMatrix` (lines 417-423). -/
def populateMatrix (matrix : Grid) (rows cols value : Int) : Grid :=
  forLoop 0 rows (fun row matrix =>
    forLoop 0 cols (fun col matrix => matrix.set row col value) matrix) matrix

/-- Source: `resetFutureStates` (lines 293-296). -/
def resetFutureStates (futureStates : Grid) (rows cols : Int) : Grid :=
  populateMatrix futureStates rows cols FSTATE_DEFAULT

/-- Source: `countNeighbors` (lines 255-291). -/
def countNeighbors (lifeGrid : Grid) (rows cols cellRow cellCol : Int) : Int :=
  forLoop (cellRow - 1) (cellRow + 2) (fun row aliveNeighbors =>
    forLoop (cellCol - 1) (cellCol + 2) (fun col aliveNeighbors =>
      if row = cellRow ∧ col = cellCol then aliveNeighbors
      else
        let wrappedRow := if row < 0 then rows - 1 else if row ≥ rows then 0 else row
        let wrappedCol := if col < 0 then cols - 1 else if col ≥ cols then 0 else col
        let currentCell := lifeGrid wrappedRow wrappedCol
        if currentCell = ALIVE then aliveNeighbors + 1 else aliveNeighbors)
      aliveNeighbors) 0

/-- Body of the inner loop of `prepareNextGen` (lines 218-238) for one cell. -/
def prepareCell (rows cols row col : Int) (s : Life) : Life :=
  let aliveNeighbors := countNeighbors s.lifeGrid rows cols row col
  let currentCell := s.lifeGrid row col
  let s1 : Life :=
    if currentCell = DEAD ∧ aliveNeighbors = 3 then
      { s with futureStates := s.futureStates.set row col ALIVE }
    else s
  if currentCell = DEAD ∧ aliveNeighbors ≠ 3 then s1
  else if currentCell = ALIVE ∧ aliveNeighbors < 2 then
    { s1 with futureStates := s1.futureStates.set row col DEAD }
  else if currentCell = ALIVE ∧ aliveNeighbors > 3 then
    { s1 with futureStates := s1.futureStates.set row col DEAD }
  else s1

/-- Source: `prepareNextGen` (lines 215-241). -/
def prepareNextGen (lifeGrid futureStates : Grid) (rows cols : Int) : Life :=
  forLoop 0 rows (fun row s =>
    forLoop 0 cols (fun col s => prepareCell rows cols row col s) s)
    { lifeGrid := lifeGrid, futureStates := futureStates }

/-- Body of the inner loop of `deployNextGen` (lines 246-250) for one cell. -/
def deployCell (row col : Int) (s : Life) : Life :=
  let currentCellState := s.futureStates row col
  if currentCellState = FSTATE_DEFAULT then s
  else { s with lifeGrid := s.lifeGrid.set row col currentCellState }

/-- Source: `deployNextGen` (lines 243-253). -/
def deployNextGen (lifeGrid futureStates : Grid) (rows cols : Int) : Life :=
  forLoop 0 rows (fun row s =>
    forLoop 0 cols (fun col s => deployCell row col s) s)
    { lifeGrid := lifeGrid, futureStates := futureStates }

/-- One generation, as in the loop of `life` (lines 97-99): `prepareNextGen`, then
`deployNextGen`, then `resetFutureStates`. -/
def tick (s : Life) (rows cols : Int) : Life :=
  let s1 := prepareNextGen s.lifeGrid s.futureStates rows cols
  let s2 := deployNextGen s1.lifeGrid s1.futureStates rows cols
  { s2 with futureStates := resetFutureStates s2.futureStates rows cols }

/-- The state after `n` iterations of the generation step. -/
def ticks (rows cols : Int) : Nat → Life → Life
  | 0, s => s
  | n + 1, s => ticks rows cols n (tick s rows cols)

/-! ## Vocabulary of the specification -/

/-- Cell `(r, c)` lies inside a `rows x cols` matrix. -/
def InGrid (rows cols r c : Int) : Prop :=
  0 ≤ r ∧ r < rows ∧ 0 ≤ c ∧ c < cols

instance (rows cols r c : Int) : Decidable (InGrid rows cols r c) := by
  unfold InGrid; infer_instance

/-- The value `prepareNextGen` leaves in a staging cell whose live cell is
`cell`, whose neighbour count is `n` and whose previous staged value is `old`. -/
def staged (cell n old : Int) : Int :=
  if cell = DEAD ∧ n = 3 then ALIVE
  else if cell = ALIVE ∧ (n < 2 ∨ n > 3) then DEAD
  else old

/-- The index used for `row` (or `col`) by the border substitution of
`countNeighbors` (lines 269-282). -/
def wrapped (i n : Int) : Int :=
  if i < 0 then n - 1 else if i ≥ n then 0 else i

/-- One examined cell contributes 1 when it holds `ALIVE`, else 0. -/
def aliveAt (g : Grid) (i j : Int) : Int :=
  if g i j = ALIVE then 1 else 0

/-- The offsets `(dr, dc)` in `{-1,0,1} x {-1,0,1}` other than `(0,0)`. -/
def neighbourOffsets : List (Int × Int) :=
  (List.product [-1, 0, 1] [-1, 0, 1]).filter (fun d => d ≠ (0, 0))

/-- The neighbour count as the specification words it: the number of offsets
`(dr, dc)` for which `grid[(row+dr) mod rows][(col+dc) mod cols] == ALIVE`,
`mod` being the non-negative remainder. -/
def countNeighborsSpec (grid : Grid) (rows cols row col : Int) : Int :=
  ((neighbourOffsets.countP
    (fun d => grid ((row + d.1) % rows) ((col + d.2) % cols) = ALIVE) : Nat) : Int)

/-- Every cell of the `rows x cols` matrix holds `ALIVE` or `DEAD`. -/
def LiveCells (rows cols : Int) (g : Grid) : Prop :=
  ∀ r c, InGrid rows cols r c → g r c = ALIVE ∨ g r c = DEAD

/-- Every cell of the `rows x cols` matrix holds `FSTATE_DEFAULT` (unset). -/
def AllUnset (rows cols : Int) (g : Grid) : Prop :=
  ∀ r c, InGrid rows cols r c → g r c = FSTATE_DEFAULT

/-- Conway's rule B3/S23 relating the matrix `before` a generation to the matrix
`after` it, the neighbour counts being those of `countNeighbors` on `before`: a
cell is `ALIVE` afterwards exactly when it was `ALIVE` with 2 or 3 neighbours or
`DEAD` with exactly 3, and is `DEAD` otherwise. -/
def ConwayStep (rows cols : Int) (before after : Grid) : Prop :=
  ∀ r c, InGrid rows cols r c →
    (after r c = ALIVE ↔
      (before r c = ALIVE ∧
        (countNeighbors before rows cols r c = 2 ∨ countNeighbors before rows cols r c = 3))
      ∨ (before r c = DEAD ∧ countNeighbors before rows cols r c = 3))
    ∧ (after r c = ALIVE ∨ after r c = DEAD)
    ∧ (before r c = DEAD →
        countNeighbors before rows cols r c = 2 ∨ countNeighbors before rows cols r c = 4 →
        after r c = DEAD)

/-- The next state of a cell under B3/S23. -/
def conway (cell n : Int) : Int :=
  if (cell = ALIVE ∧ (n = 2 ∨ n = 3)) ∨ (cell = DEAD ∧ n = 3) then ALIVE else DEAD

/-- A matrix that is `DEAD` except for one `ALIVE` cell at `(r, c)`. -/
def singleCell (r c : Int) : Grid :=
  fun i j => if i = r ∧ j = c then ALIVE else DEAD

/-- The horizontal blinker: `ALIVE` at `(r, c-1)`, `(r, c)`, `(r, c+1)`, else `DEAD`. -/
def blinkerRow (r c : Int) : Grid :=
  fun i j => if i = r ∧ (j = c - 1 ∨ j = c ∨ j = c + 1) then ALIVE else DEAD

/-- The vertical blinker on a torus of `rows` rows: `ALIVE` at
`((r-1) mod rows, c)`, `(r, c)`, `((r+1) mod rows, c)`, else `DEAD`. -/
def blinkerCol (rows r c : Int) : Grid :=
  fun i j => if j = c ∧ (i = (r - 1) % rows ∨ i = r ∨ i = (r + 1) % rows) then ALIVE else DEAD

/-- A staging matrix that is unset everywhere. -/
def unsetGrid : Grid := fun _ _ => FSTATE_DEFAULT

/-- The eight torus neighbours `((r+dr) mod rows, (c+dc) mod cols)` of `(r, c)`. -/
def torusNeighbours (rows cols r c : Int) : List (Int × Int) :=
  neighbourOffsets.map (fun d => ((r + d.1) % rows, (c + d.2) % cols))

/-- The sum of `countNeighbors` over all cells of the `rows x cols` matrix. -/
def sumNeighbourCounts (g : Grid) (rows cols : Int) : Int :=
  ∑ p ∈ Finset.Ico 0 rows ×ˢ Finset.Ico 0 cols, countNeighbors g rows cols p.1 p.2

/-- The cells of the `rows x cols` matrix whose `countNeighbors` equals `n`. -/
def cellsWithCount (g : Grid) (rows cols n : Int) : Finset (Int × Int) :=
  (Finset.Ico 0 rows ×ˢ Finset.Ico 0 cols).filter
    (fun p => countNeighbors g rows cols p.1 p.2 = n)

/-- The toroidal translation of a grid by `(a, b)`:
`shift(g)[r][c] = g[(r+a) mod rows][(c+b) mod cols]`. -/
def shift (rows cols a b : Int) (g : Grid) : Grid :=
  fun r c => g ((r + a) % rows) ((c + b) % cols)

/-! ## Program codes and keys (lines 6-28 of the source) -/

def ERROR_NOMEMORY : Int := -1
def WIN_SIZE_ERROR : Int := -2
def LIFE_ERROR : Int := -3
def SUCCESS : Int := 0
def FAIL : Int := 1
def TERMINATE : Int := -4
def INPUT_FAIL : Int := -5
def SUCCESS_BREAK : Int := 3
/-- Source: `SPEED_UP = 'a'`, as the `int` it is compared with. -/
def SPEED_UP : Int := 97
/-- Source: `SPEED_DOWN = 'z'`. -/
def SPEED_DOWN : Int := 122
/-- Source: `TERMINATE_KEY = ' '`. -/
def TERMINATE_KEY : Int := 32
def DELAY_VAL : Int := 200
def TIME_DELTA : Int := 20
def INPUT_TERMINATE : Int := -1
/-- The value `ERR` of `ncurses.h`, which `getch` returns when no key was pressed
within the timeout. -/
def ERR : Int := -1

/-- A mathematical integer reduced to the 32-bit two's-complement `int`. -/
def toInt32 (x : Int) : Int :=
  (x + 2 ^ 31) % 2 ^ 32 - 2 ^ 31

/-- Source: `handleKey` (lines 340-361).  `key` is the value returned by `getch`;
the result is the returned status and the new `*delayValue`.  The `int`
arithmetic on the delay is reduced to 32 bits. -/
def handleKey (delayValue key : Int) : Int × Int :=
  let status := SUCCESS
  let status := if key = ERR then SUCCESS_BREAK else status
  if key = TERMINATE_KEY then (TERMINATE, delayValue)
  else if key = SPEED_UP then
    if toInt32 (delayValue - TIME_DELTA) < 0 then (status, 0)
    else (status, toInt32 (delayValue - TIME_DELTA))
  else if key = SPEED_DOWN then (status, toInt32 (delayValue + TIME_DELTA))
  else (status, delayValue)

/-- Source: `windowSizeCheck` (lines 193-209).  `winRows` and `winCols` are the
display size that `getmaxyx(stdscr, ...)` stores; the messages printed on
failure are not modelled. -/
def windowSizeCheck (winRows winCols rows cols : Int) : Int :=
  let code := SUCCESS
  if winRows ≤ rows ∨ winCols ≤ cols then WIN_SIZE_ERROR else code

/-! ## Standard input and the seed loader

`stdin` is the list of the characters still to be read.  `scanf` and `getchar`
belong to the C library; they are modelled after the C standard, with the
numbers read taken as mathematical integers (an input whose numbers do not fit
an `int` is outside the model).  `freopen` (line 178) has no effect on the
values returned and is left out. -/

/-- The `EOF` of `stdio.h`. -/
def EOF : Int := -1

/-- The white-space characters of `isspace`: space and the codes 9 to 13. -/
def isSpaceChar (c : Char) : Bool :=
  c.toNat = 32 || (9 ≤ c.toNat && c.toNat ≤ 13)

/-- The value of a string of decimal digits. -/
def digitsValue (ds : List Char) : Nat :=
  ds.foldl (fun acc d => 10 * acc + (d.toNat - 48)) 0

/-- Outcome of one `%d` conversion. -/
inductive ScanInt where
  | eof : ScanInt
  | mismatch (rest : List Char) : ScanInt
  | ok (value : Int) (rest : List Char) : ScanInt

/-- One `%d` conversion of `scanf`: skip white space, then read an optional sign
(`-` is code 45, `+` is code 43) and the longest run of digits.  End of input
before the number is `eof`; no digit where one is needed is `mismatch`. -/
def scanInt (input : List Char) : ScanInt :=
  match input.dropWhile isSpaceChar with
  | [] => ScanInt.eof
  | c :: t =>
    if c.toNat = 45 then
      if t.takeWhile Char.isDigit = [] then ScanInt.mismatch t
      else ScanInt.ok (-(digitsValue (t.takeWhile Char.isDigit) : Int)) (t.dropWhile Char.isDigit)
    else if c.toNat = 43 then
      if t.takeWhile Char.isDigit = [] then ScanInt.mismatch t
      else ScanInt.ok (digitsValue (t.takeWhile Char.isDigit) : Int) (t.dropWhile Char.isDigit)
    else
      if (c :: t).takeWhile Char.isDigit = [] then ScanInt.mismatch (c :: t)
      else ScanInt.ok (digitsValue ((c :: t).takeWhile Char.isDigit) : Int)
        ((c :: t).dropWhile Char.isDigit)

/-- The call `scanf("%d %d", &cellRow, &cellCol)`: the returned count (`EOF` when
the input ends before the first number), the two variables afterwards, and the
input left.  The blank of the format skips white space, as `%d` does anyway. -/
def scanfPair (input : List Char) (cellRow cellCol : Int) : Int × Int × Int × List Char :=
  match scanInt input with
  | ScanInt.eof => (EOF, cellRow, cellCol, [])
  | ScanInt.mismatch rest => (0, cellRow, cellCol, rest)
  | ScanInt.ok a in1 =>
    match scanInt in1 with
    | ScanInt.eof => (1, a, cellCol, [])
    | ScanInt.mismatch rest => (1, a, cellCol, rest)
    | ScanInt.ok b in2 => (2, a, b, in2)

/-- The call `getchar()`: the code of the next character, or `EOF`. -/
def getchar (input : List Char) : Int × List Char :=
  match input with
  | [] => (EOF, [])
  | c :: t => ((c.toNat : Int), t)

/-- Source: `validateNextChar` (lines 183-190); 32 is the space and 10 the
newline.  Returns the status and the input left. -/
def validateNextChar (input : List Char) : Int × List Char :=
  let status := SUCCESS
  let nextChar := (getchar input).1
  if nextChar ≠ 32 ∧ nextChar ≠ 10 ∧ nextChar ≠ EOF then (FAIL, (getchar input).2)
  else (status, (getchar input).2)

/-- Body of the loop of `initFromFile` (lines 149-176): the status, the matrix
and the input after one iteration that starts with status `SUCCESS`. -/
def initFromFileBody (lifeGrid : Grid) (rows cols : Int) (input : List Char) :
    Int × Grid × List Char :=
  let status := SUCCESS
  let scanned := scanfPair input 0 0
  let res := scanned.1
  let cellRow := scanned.2.1
  let cellCol := scanned.2.2.1
  let input := scanned.2.2.2
  let status := if res ≠ 2 then INPUT_FAIL else status
  let status :=
    if status = SUCCESS ∧ (cellRow = INPUT_TERMINATE ∨ cellCol = INPUT_TERMINATE) then
      SUCCESS_BREAK
    else status
  let status :=
    if status = SUCCESS ∧ (cellRow < 0 ∨ cellRow ≥ rows ∨ cellCol < 0 ∨ cellCol ≥ cols) then
      INPUT_FAIL
    else status
  let validated : Int × List Char :=
    if status = SUCCESS then
      (if (validateNextChar input).1 = FAIL then INPUT_FAIL else status,
        (validateNextChar input).2)
    else (status, input)
  let status := validated.1
  let input := validated.2
  let lifeGrid := if status = SUCCESS then lifeGrid.set cellRow cellCol ALIVE else lifeGrid
  (status, lifeGrid, input)

/-- The loop `while (status == SUCCESS)` of `initFromFile`, run for at most `fuel`
iterations; `none` when the iterations run out first. -/
def initFromFileLoop (rows cols : Int) : Nat → Int → Grid → List Char → Option (Int × Grid)
  | 0, status, lifeGrid, _ => if status = SUCCESS then none else some (status, lifeGrid)
  | fuel + 1, status, lifeGrid, input =>
    if status = SUCCESS then
      initFromFileLoop rows cols fuel (initFromFileBody lifeGrid rows cols input).1
        (initFromFileBody lifeGrid rows cols input).2.1
        (initFromFileBody lifeGrid rows cols input).2.2
    else some (status, lifeGrid)

/-- Source: `initFromFile` (lines 146-181): the returned status and the matrix
afterwards.  One iteration more than the input has characters is always enough
(`initFromFile_total`). -/
def initFromFile (lifeGrid : Grid) (rows cols : Int) (input : List Char) : Option (Int × Grid) :=
  initFromFileLoop rows cols (input.length + 1) SUCCESS lifeGrid input

/-- The matrix with the listed cells set to `ALIVE`, in order. -/
def markCells (g : Grid) : List (Int × Int) → Grid
  | [] => g
  | p :: cells => markCells (g.set p.1 p.2 ALIVE) cells

/-- What may follow the second number of an accepted pair: a space (32), a
newline (10), or the end of the input.  `after` is the input behind it. -/
def Trailer (input after : List Char) : Prop :=
  (∃ ch, input = ch :: after ∧ (ch.toNat = 32 ∨ ch.toNat = 10)) ∨ (input = [] ∧ after = [])

/-- The input starts with the coordinate pairs `cells`, each read by one `scanf`,
lying inside the `rows x cols` grid and followed by an accepted trailer; `rest`
is the input behind the last of them. -/
inductive SeedPairs (rows cols : Int) : List (Int × Int) → List Char → List Char → Prop
  | nil (input : List Char) : SeedPairs rows cols [] input input
  | cons (r c : Int) (cells : List (Int × Int)) (input in1 in2 rest : List Char) :
      scanfPair input 0 0 = (2, r, c, in1) → InGrid rows cols r c → Trailer in1 in2 →
      SeedPairs rows cols cells in2 rest → SeedPairs rows cols ((r, c) :: cells) input rest

/-! ## The allocator, `createMatrix` and `createLife`

A pointer is a natural number, `NULL` being 0.  The outcome of the successive
calls of `malloc` is a parameter `fails`: the call number `k` returns `NULL` when
`fails k` holds, and otherwise a fresh block `k + 1`. -/

/-- The null pointer. -/
def NULL : Nat := 0

/-- The heap as far as the matrix functions can observe it: the number of
`malloc` calls made, the blocks allocated and not yet freed, and the row pointers
stored in the row-index blocks (`rowPtr matrix row` is `matrix[row]`). -/
structure Heap where
  calls : Nat
  live : List Nat
  rowPtr : Nat → Int → Nat

/-- The call `malloc(size)`: the pointer returned and the heap afterwards. -/
def malloc (fails : Nat → Bool) (h : Heap) : Nat × Heap :=
  if fails h.calls then (NULL, { h with calls := h.calls + 1 })
  else (h.calls + 1, { h with calls := h.calls + 1, live := (h.calls + 1) :: h.live })

/-- The call `free(p)`. -/
def free (p : Nat) (h : Heap) : Heap :=
  { h with live := h.live.erase p }

/-- Source: `freeMatrix` (lines 399-411). -/
def freeMatrix (matrix : Nat) (rows : Int) (h : Heap) : Heap :=
  if matrix = NULL then h
  else
    free matrix
      (forLoop 0 rows (fun row h =>
        if h.rowPtr matrix row = NULL then h else free (h.rowPtr matrix row) h) h)

/-- State of the loop of `createMatrix`: the heap and whether `break` was taken. -/
structure CreateState where
  heap : Heap
  broken : Bool

/-- Body of the loop of `createMatrix` (lines 380-388).  When the row allocation
fails the rows so far are released and the loop is left; the statement
`matrix == NULL;` of line 384 is a comparison whose value is discarded, so
`matrix` keeps its value. -/
def createMatrixBody (fails : Nat → Bool) (matrix : Nat) (row : Int) (s : CreateState) :
    CreateState :=
  if s.broken then s
  else
    let rowPtr := (malloc fails s.heap).1
    let heap := (malloc fails s.heap).2
    if rowPtr = NULL then { heap := freeMatrix matrix row heap, broken := true }
    else
      { heap := { heap with rowPtr := fun m r => if m = matrix ∧ r = row then rowPtr
                                                  else heap.rowPtr m r },
        broken := false }

/-- Source: `createMatrix` (lines 375-393): the pointer returned and the heap
afterwards. -/
def createMatrix (fails : Nat → Bool) (rows : Int) (h : Heap) : Nat × Heap :=
  let matrix := (malloc fails h).1
  let h := (malloc fails h).2
  if matrix ≠ NULL then
    (matrix, (forLoop 0 rows (fun row s => createMatrixBody fails matrix row s)
      { heap := h, broken := false }).heap)
  else (matrix, h)

/-- Source: `createLife` (lines 116-144): the returned status, the contents of the
two matrices and the heap afterwards.  `garbage1` and `garbage2` are the contents
of the freshly allocated matrices before they are filled. -/
def createLife (fails : Nat → Bool) (rows cols : Int) (h : Heap) (garbage1 garbage2 : Grid)
    (input : List Char) : Option (Int × Life × Heap) :=
  let status := SUCCESS
  let lifeGrid := (createMatrix fails rows h).1
  let h := (createMatrix fails rows h).2
  let status := if lifeGrid = NULL then ERROR_NOMEMORY else status
  let futureStates := (createMatrix fails rows h).1
  let h := (createMatrix fails rows h).2
  let h := if futureStates = NULL then freeMatrix lifeGrid rows h else h
  let status := if futureStates = NULL then ERROR_NOMEMORY else status
  if status = SUCCESS then
    match initFromFile (populateMatrix garbage1 rows cols DEAD) rows cols input with
    | none => none
    | some (initStatus, grid) =>
      if initStatus = INPUT_FAIL then
        some (INPUT_FAIL,
          { lifeGrid := grid,
            futureStates := populateMatrix garbage2 rows cols FSTATE_DEFAULT },
          freeMatrix futureStates rows (freeMatrix lifeGrid rows h))
      else
        some (status,
          { lifeGrid := grid,
            futureStates := populateMatrix garbage2 rows cols FSTATE_DEFAULT }, h)
  else some (status, { lifeGrid := garbage1, futureStates := garbage2 }, h)

/-- A heap on which nothing has been allocated yet. -/
def emptyHeap : Heap := { calls := 0, live := [], rowPtr := fun _ _ => 0 }

/-- The matrix `g` of a `rows x cols` grid holds `ALIVE` exactly at the listed
cells and `DEAD` at every other cell of the grid. -/
def MarksExactly (rows cols : Int) (cells : List (Int × Int)) (g : Grid) : Prop :=
  ∀ i j, InGrid rows cols i j →
    (g i j = ALIVE ↔ (i, j) ∈ cells) ∧ (g i j = ALIVE ∨ g i j = DEAD)

/-! ## Checked indexing

The same functions with every matrix access checked against the bounds of the
`rows x cols` allocation: an access outside them yields `none`. -/

/-- The read `matrix[r][c]`, checked. -/
def readCell (g : Grid) (rows cols r c : Int) : Option Int :=
  if InGrid rows cols r c then some (g r c) else none

/-- The write `matrix[r][c] = v`, checked. -/
def writeCell (g : Grid) (rows cols r c v : Int) : Option Grid :=
  if InGrid rows cols r c then some (g.set r c v) else none

/-- The loop `for (int i = lo; i < hi; i++) body` with a body that may fail. -/
def forLoopM {σ : Type} (lo hi : Int) (body : Int → σ → Option σ) (s : σ) : Option σ :=
  (List.range (hi - lo).toNat).foldlM (fun acc (k : Nat) => body (lo + (k : Int)) acc) s

/-- Source: `countNeighbors` (lines 255-291), with the read of line 284 checked. -/
def countNeighborsChecked (lifeGrid : Grid) (rows cols cellRow cellCol : Int) : Option Int :=
  forLoopM (cellRow - 1) (cellRow + 2) (fun row aliveNeighbors =>
    forLoopM (cellCol - 1) (cellCol + 2) (fun col aliveNeighbors =>
      if row = cellRow ∧ col = cellCol then some aliveNeighbors
      else
        let wrappedRow := if row < 0 then rows - 1 else if row ≥ rows then 0 else row
        let wrappedCol := if col < 0 then cols - 1 else if col ≥ cols then 0 else col
        (readCell lifeGrid rows cols wrappedRow wrappedCol).bind (fun currentCell =>
          some (if currentCell = ALIVE then aliveNeighbors + 1 else aliveNeighbors)))
      aliveNeighbors) 0

/-- Body of the inner loop of `prepareNextGen` (lines 218-238), with the read of
line 219 and the writes of lines 222, 230 and 235 checked. -/
def prepareCellChecked (rows cols row col : Int) (s : Life) : Option Life :=
  (countNeighborsChecked s.lifeGrid rows cols row col).bind (fun aliveNeighbors =>
    (readCell s.lifeGrid rows cols row col).bind (fun currentCell =>
      (if currentCell = DEAD ∧ aliveNeighbors = 3 then
        (writeCell s.futureStates rows cols row col ALIVE).map
          (fun f => { s with futureStates := f })
       else some s).bind (fun s1 =>
        if currentCell = DEAD ∧ aliveNeighbors ≠ 3 then some s1
        else if currentCell = ALIVE ∧ aliveNeighbors < 2 then
          (writeCell s1.futureStates rows cols row col DEAD).map
            (fun f => { s1 with futureStates := f })
        else if currentCell = ALIVE ∧ aliveNeighbors > 3 then
          (writeCell s1.futureStates rows cols row col DEAD).map
            (fun f => { s1 with futureStates := f })
        else some s1)))

/-- Source: `prepareNextGen` (lines 215-241), with checked accesses. -/
def prepareNextGenChecked (lifeGrid futureStates : Grid) (rows cols : Int) : Option Life :=
  forLoopM 0 rows (fun row s =>
    forLoopM 0 cols (fun col s => prepareCellChecked rows cols row col s) s)
    { lifeGrid := lifeGrid, futureStates := futureStates }

/-- Body of the inner loop of `deployNextGen` (lines 246-250), with the read of
line 246 and the write of line 250 checked. -/
def deployCellChecked (rows cols row col : Int) (s : Life) : Option Life :=
  (readCell s.futureStates rows cols row col).bind (fun currentCellState =>
    if currentCellState = FSTATE_DEFAULT then some s
    else (writeCell s.lifeGrid rows cols row col currentCellState).map
      (fun g => { s with lifeGrid := g }))

/-- Source: `deployNextGen` (lines 243-253), with checked accesses. -/
def deployNextGenChecked (lifeGrid futureStates : Grid) (rows cols : Int) : Option Life :=
  forLoopM 0 rows (fun row s =>
    forLoopM 0 cols (fun col s => deployCellChecked rows cols row col s) s)
    { lifeGrid := lifeGrid, futureStates := futureStates }

/-! ## Loop rules -/

/-- Invariant rule for `forLoop`. -/
theorem forLoop_inv {σ : Type} (lo hi : Int) (body : Int → σ → σ) (s : σ)
    (P : Int → σ → Prop) (h0 : P lo s)
    (hstep : ∀ k t, lo ≤ k → k < hi → P k t → P (k + 1) (body k t)) :
    P (max lo hi) (forLoop lo hi body s) := by
  have key : ∀ m : Nat, lo + (m : Int) ≤ max lo hi →
      P (lo + (m : Int))
        ((List.range m).foldl (fun acc (k : Nat) => body (lo + (k : Int)) acc) s) := by
    intro m
    induction m with
    | zero => intro _; simpa using h0
    | succ m ih =>
      intro hm
      rw [List.range_succ, List.foldl_append]
      have hm1 : lo + (m : Int) ≤ max lo hi := by push_cast at hm; omega
      have h := hstep _ _ (by omega) (by push_cast at hm; omega) (ih hm1)
      simpa [add_assoc] using h
  have hend : lo + (((hi - lo).toNat : Nat) : Int) = max lo hi := by omega
  have := key (hi - lo).toNat (by omega)
  rw [hend] at this
  exact this

/-- Rule for the nested loops `for row in [0, rows) for col in [0, cols)` whose body
at `(row, col)` rewrites only cell `(row, col)` of the matrix `cells`, as a
function `f` of the untouched part `frame` of the state and of the old cell. -/
theorem cellLoop_spec {σ φ : Type} (frame : σ → φ) (cells : σ → Grid)
    (f : φ → Int → Int → Int → Int) (body : Int → Int → σ → σ)
    (hframe : ∀ r c t, frame (body r c t) = frame t)
    (hcells : ∀ r c t i j, cells (body r c t) i j =
      if i = r ∧ j = c then f (frame t) r c (cells t r c) else cells t i j)
    (rows cols : Int) (s : σ) :
    frame (forLoop 0 rows (fun row t => forLoop 0 cols (fun col u => body row col u) t) s)
        = frame s ∧
    ∀ i j,
      cells (forLoop 0 rows (fun row t => forLoop 0 cols (fun col u => body row col u) t) s) i j
        = if InGrid rows cols i j then f (frame s) i j (cells s i j) else cells s i j := by
  -- the inner loop, for a fixed row
  have inner : ∀ (r : Int) (t : σ),
      frame (forLoop 0 cols (fun col u => body r col u) t) = frame t ∧
      ∀ i j, cells (forLoop 0 cols (fun col u => body r col u) t) i j =
        if i = r ∧ 0 ≤ j ∧ j < cols then f (frame t) r j (cells t r j) else cells t i j := by
    intro r t
    have h := forLoop_inv 0 cols (fun col u => body r col u) t
      (fun k u => frame u = frame t ∧ ∀ i j, cells u i j =
        if i = r ∧ 0 ≤ j ∧ j < k then f (frame t) r j (cells t r j) else cells t i j)
      ⟨rfl, fun i j => by
        have : ¬ (i = r ∧ 0 ≤ j ∧ j < 0) := by omega
        simp [this]⟩
      (by
        rintro k u hk0 _ ⟨hf, hc⟩
        refine ⟨by rw [hframe, hf], fun i j => ?_⟩
        rw [hcells, hf, hc r k, hc i j]
        have hk : ¬ (r = r ∧ 0 ≤ k ∧ k < k) := by omega
        rw [if_neg hk]
        by_cases h1 : i = r ∧ j = k
        · obtain ⟨rfl, rfl⟩ := h1
          have : i = i ∧ 0 ≤ j ∧ j < j + 1 := by omega
          simp [this]
        · rw [if_neg h1]
          by_cases h2 : i = r ∧ 0 ≤ j ∧ j < k
          · have : i = r ∧ 0 ≤ j ∧ j < k + 1 := by omega
            rw [if_pos h2, if_pos this]
          · have : ¬ (i = r ∧ 0 ≤ j ∧ j < k + 1) := by omega
            rw [if_neg h2, if_neg this])
    refine ⟨h.1, fun i j => ?_⟩
    rw [h.2 i j]
    by_cases h3 : i = r ∧ 0 ≤ j ∧ j < cols
    · have : i = r ∧ 0 ≤ j ∧ j < max 0 cols := by omega
      rw [if_pos h3, if_pos this]
    · have : ¬ (i = r ∧ 0 ≤ j ∧ j < max 0 cols) := by omega
      rw [if_neg h3, if_neg this]
  have h := forLoop_inv 0 rows
    (fun row t => forLoop 0 cols (fun col u => body row col u) t) s
    (fun k u => frame u = frame s ∧ ∀ i j, cells u i j =
      if (0 ≤ i ∧ i < k) ∧ 0 ≤ j ∧ j < cols then f (frame s) i j (cells s i j)
      else cells s i j)
    ⟨rfl, fun i j => by
      have : ¬ ((0 ≤ i ∧ i < 0) ∧ 0 ≤ j ∧ j < cols) := by omega
      simp [this]⟩
    (by
      rintro k u hk0 _ ⟨hf, hc⟩
      obtain ⟨hf2, hc2⟩ := inner k u
      refine ⟨by rw [hf2, hf], fun i j => ?_⟩
      rw [hc2, hf, hc k j, hc i j]
      have hk : ¬ ((0 ≤ k ∧ k < k) ∧ 0 ≤ j ∧ j < cols) := by omega
      rw [if_neg hk]
      by_cases h1 : i = k ∧ 0 ≤ j ∧ j < cols
      · obtain ⟨rfl, h1⟩ := h1
        have : (0 ≤ i ∧ i < i + 1) ∧ 0 ≤ j ∧ j < cols := by omega
        rw [if_pos ⟨rfl, h1⟩, if_pos this]
      · rw [if_neg h1]
        by_cases h2 : (0 ≤ i ∧ i < k) ∧ 0 ≤ j ∧ j < cols
        · have : (0 ≤ i ∧ i < k + 1) ∧ 0 ≤ j ∧ j < cols := by omega
          rw [if_pos h2, if_pos this]
        · have : ¬ ((0 ≤ i ∧ i < k + 1) ∧ 0 ≤ j ∧ j < cols) := by omega
          rw [if_neg h2, if_neg this])
  refine ⟨h.1, fun i j => ?_⟩
  rw [h.2 i j]
  by_cases h3 : InGrid rows cols i j
  · have : (0 ≤ i ∧ i < max 0 rows) ∧ 0 ≤ j ∧ j < cols := by unfold InGrid at h3; omega
    rw [if_pos h3, if_pos this]
  · have : ¬ ((0 ≤ i ∧ i < max 0 rows) ∧ 0 ≤ j ∧ j < cols) := by unfold InGrid at h3; omega
    rw [if_neg h3, if_neg this]

/-- Every cell of the matrix after `populateMatrix`. -/
theorem populateMatrix_apply (matrix : Grid) (rows cols value i j : Int) :
    populateMatrix matrix rows cols value i j =
      if InGrid rows cols i j then value else matrix i j := by
  have h := cellLoop_spec (fun _ : Grid => ()) (fun m : Grid => m)
    (fun _ _ _ _ => value) (fun row col m => m.set row col value)
    (fun _ _ _ => rfl) (fun r c t i j => by simp [Grid.set]) rows cols matrix
  exact h.2 i j

theorem prepareCell_lifeGrid (rows cols row col : Int) (s : Life) :
    (prepareCell rows cols row col s).lifeGrid = s.lifeGrid := by
  unfold prepareCell
  simp only []
  split_ifs <;> rfl

theorem prepareCell_futureStates (rows cols row col : Int) (s : Life) (i j : Int) :
    (prepareCell rows cols row col s).futureStates i j =
      if i = row ∧ j = col then
        staged (s.lifeGrid row col) (countNeighbors s.lifeGrid rows cols row col)
          (s.futureStates row col)
      else s.futureStates i j := by
  unfold prepareCell staged
  simp only [DEAD, ALIVE]
  by_cases hij : i = row ∧ j = col
  · obtain ⟨rfl, rfl⟩ := hij
    split_ifs <;> simp_all [Grid.set]
    omega
  · split_ifs <;> simp_all [Grid.set]

/-- The state after `prepareNextGen`: the live matrix is untouched, and every
staging cell in the grid holds `staged` of the live cell and its count. -/
theorem prepareNextGen_spec (lifeGrid futureStates : Grid) (rows cols : Int) :
    (prepareNextGen lifeGrid futureStates rows cols).lifeGrid = lifeGrid ∧
    ∀ i j, (prepareNextGen lifeGrid futureStates rows cols).futureStates i j =
      if InGrid rows cols i j then
        staged (lifeGrid i j) (countNeighbors lifeGrid rows cols i j) (futureStates i j)
      else futureStates i j :=
  cellLoop_spec Life.lifeGrid Life.futureStates
    (fun lg r c old => staged (lg r c) (countNeighbors lg rows cols r c) old)
    (fun row col s => prepareCell rows cols row col s)
    (fun r c t => prepareCell_lifeGrid rows cols r c t)
    (fun r c t i j => prepareCell_futureStates rows cols r c t i j)
    rows cols { lifeGrid := lifeGrid, futureStates := futureStates }

theorem deployCell_futureStates (row col : Int) (s : Life) :
    (deployCell row col s).futureStates = s.futureStates := by
  unfold deployCell
  simp only []
  split_ifs <;> rfl

theorem deployCell_lifeGrid (row col : Int) (s : Life) (i j : Int) :
    (deployCell row col s).lifeGrid i j =
      if i = row ∧ j = col then
        (if s.futureStates row col = FSTATE_DEFAULT then s.lifeGrid row col
         else s.futureStates row col)
      else s.lifeGrid i j := by
  unfold deployCell
  simp only []
  by_cases hij : i = row ∧ j = col
  · obtain ⟨rfl, rfl⟩ := hij
    split_ifs <;> simp_all [Grid.set]
  · split_ifs <;> simp_all [Grid.set]

/-- The state after `deployNextGen`. -/
theorem deployNextGen_spec (lifeGrid futureStates : Grid) (rows cols : Int) :
    (deployNextGen lifeGrid futureStates rows cols).futureStates = futureStates ∧
    ∀ i j, (deployNextGen lifeGrid futureStates rows cols).lifeGrid i j =
      if InGrid rows cols i j then
        (if futureStates i j = FSTATE_DEFAULT then lifeGrid i j else futureStates i j)
      else lifeGrid i j :=
  cellLoop_spec Life.futureStates Life.lifeGrid
    (fun fs r c old => if fs r c = FSTATE_DEFAULT then old else fs r c)
    (fun row col s => deployCell row col s)
    (fun r c t => deployCell_futureStates r c t)
    (fun r c t i j => deployCell_lifeGrid r c t i j)
    rows cols { lifeGrid := lifeGrid, futureStates := futureStates }

/-! ## The neighbour count -/

theorem forLoop_three {σ : Type} (a : Int) (body : Int → σ → σ) (s : σ) :
    forLoop (a - 1) (a + 2) body s = body (a + 1) (body a (body (a - 1) s)) := by
  unfold forLoop
  have h3 : (a + 2 - (a - 1)).toNat = 3 := by omega
  have e1 : a - 1 + 1 = a := by omega
  have e2 : a - 1 + 2 = a + 1 := by omega
  rw [h3]
  simp [List.range_succ, e1, e2]

/-- The two loops of `countNeighbors` unrolled: the eight examined cells. -/
theorem countNeighbors_eq (g : Grid) (rows cols r c : Int) :
    countNeighbors g rows cols r c =
      aliveAt g (wrapped (r - 1) rows) (wrapped (c - 1) cols)
      + aliveAt g (wrapped (r - 1) rows) (wrapped c cols)
      + aliveAt g (wrapped (r - 1) rows) (wrapped (c + 1) cols)
      + aliveAt g (wrapped r rows) (wrapped (c - 1) cols)
      + aliveAt g (wrapped r rows) (wrapped (c + 1) cols)
      + aliveAt g (wrapped (r + 1) rows) (wrapped (c - 1) cols)
      + aliveAt g (wrapped (r + 1) rows) (wrapped c cols)
      + aliveAt g (wrapped (r + 1) rows) (wrapped (c + 1) cols) := by
  have hbody : countNeighbors g rows cols r c =
      forLoop (r - 1) (r + 2) (fun row acc =>
        forLoop (c - 1) (c + 2) (fun col acc =>
          acc + (if row = r ∧ col = c then 0
                 else aliveAt g (wrapped row rows) (wrapped col cols))) acc) 0 := by
    unfold countNeighbors
    congr 1
    funext row acc
    congr 1
    funext col acc
    unfold aliveAt wrapped
    split_ifs <;> simp_all
  rw [hbody]
  simp only [forLoop_three]
  have r1 : ¬ (r - 1 = r) := by omega
  have r2 : ¬ (r + 1 = r) := by omega
  have c1 : ¬ (c - 1 = c) := by omega
  have c2 : ¬ (c + 1 = c) := by omega
  simp only [r1, r2, c1, c2, false_and, and_false, and_self, if_true, if_false,
    true_and, and_true]
  ring

theorem wrapped_eq_emod (n i d : Int) (hn : 1 ≤ n) (hi : 0 ≤ i ∧ i < n)
    (hd : d = -1 ∨ d = 0 ∨ d = 1) : wrapped (i + d) n = (i + d) % n := by
  unfold wrapped
  split_ifs with h1 h2
  · have e : i + d = -1 := by omega
    rw [e, ← Int.add_emod_self, Int.emod_eq_of_lt (by omega) (by omega)]
    omega
  · have e : i + d = n := by omega
    rw [e, Int.emod_self]
  · rw [Int.emod_eq_of_lt (by omega) (by omega)]

theorem neighbourOffsets_eq : neighbourOffsets =
    [(-1, -1), (-1, 0), (-1, 1), (0, -1), (0, 1), (1, -1), (1, 0), (1, 1)] := by
  decide

theorem countNeighbors_eq_countNeighborsSpec (rows cols : Int) (g : Grid) (row col : Int)
    (hrows : 1 ≤ rows) (hcols : 1 ≤ cols) (hcell : InGrid rows cols row col) :
    countNeighbors g rows cols row col = countNeighborsSpec g rows cols row col := by
  obtain ⟨h1, h2, h3, h4⟩ := hcell
  have a1 := wrapped_eq_emod rows row (-1) hrows ⟨h1, h2⟩ (by simp)
  have a2 := wrapped_eq_emod rows row 0 hrows ⟨h1, h2⟩ (by simp)
  have a3 := wrapped_eq_emod rows row 1 hrows ⟨h1, h2⟩ (by simp)
  have b1 := wrapped_eq_emod cols col (-1) hcols ⟨h3, h4⟩ (by simp)
  have b2 := wrapped_eq_emod cols col 0 hcols ⟨h3, h4⟩ (by simp)
  have b3 := wrapped_eq_emod cols col 1 hcols ⟨h3, h4⟩ (by simp)
  rw [countNeighbors_eq]
  unfold countNeighborsSpec
  rw [neighbourOffsets_eq]
  simp only [List.countP_cons, List.countP_nil, decide_eq_true_eq]
  simp only [add_zero] at a2 b2
  simp only [← sub_eq_add_neg] at a1 b1
  rw [a1, a2, a3, b1, b2, b3]
  unfold aliveAt
  push_cast
  simp only [← sub_eq_add_neg, add_zero, zero_add]
  ring

theorem aliveAt_nonneg (g : Grid) (i j : Int) : 0 ≤ aliveAt g i j := by
  unfold aliveAt; split_ifs <;> omega

theorem aliveAt_le_one (g : Grid) (i j : Int) : aliveAt g i j ≤ 1 := by
  unfold aliveAt; split_ifs <;> omega

theorem countNeighbors_bounds (g : Grid) (rows cols r c : Int) :
    0 ≤ countNeighbors g rows cols r c ∧ countNeighbors g rows cols r c ≤ 8 := by
  rw [countNeighbors_eq]
  have n1 := aliveAt_nonneg g (wrapped (r - 1) rows) (wrapped (c - 1) cols)
  have n2 := aliveAt_nonneg g (wrapped (r - 1) rows) (wrapped c cols)
  have n3 := aliveAt_nonneg g (wrapped (r - 1) rows) (wrapped (c + 1) cols)
  have n4 := aliveAt_nonneg g (wrapped r rows) (wrapped (c - 1) cols)
  have n5 := aliveAt_nonneg g (wrapped r rows) (wrapped (c + 1) cols)
  have n6 := aliveAt_nonneg g (wrapped (r + 1) rows) (wrapped (c - 1) cols)
  have n7 := aliveAt_nonneg g (wrapped (r + 1) rows) (wrapped c cols)
  have n8 := aliveAt_nonneg g (wrapped (r + 1) rows) (wrapped (c + 1) cols)
  have m1 := aliveAt_le_one g (wrapped (r - 1) rows) (wrapped (c - 1) cols)
  have m2 := aliveAt_le_one g (wrapped (r - 1) rows) (wrapped c cols)
  have m3 := aliveAt_le_one g (wrapped (r - 1) rows) (wrapped (c + 1) cols)
  have m4 := aliveAt_le_one g (wrapped r rows) (wrapped (c - 1) cols)
  have m5 := aliveAt_le_one g (wrapped r rows) (wrapped (c + 1) cols)
  have m6 := aliveAt_le_one g (wrapped (r + 1) rows) (wrapped (c - 1) cols)
  have m7 := aliveAt_le_one g (wrapped (r + 1) rows) (wrapped c cols)
  have m8 := aliveAt_le_one g (wrapped (r + 1) rows) (wrapped (c + 1) cols)
  constructor <;> omega

/-! ## One generation -/

theorem tick_futureStates_apply (s : Life) (rows cols i j : Int) :
    (tick s rows cols).futureStates i j =
      if InGrid rows cols i j then FSTATE_DEFAULT else s.futureStates i j := by
  unfold tick resetFutureStates
  simp only []
  rw [populateMatrix_apply, (deployNextGen_spec _ _ rows cols).1,
    (prepareNextGen_spec _ _ rows cols).2 i j]
  split_ifs <;> rfl

/-- A cell after one generation, when it started as `ALIVE` or `DEAD` with its
staging cell unset: the B3/S23 successor of the cell. -/
theorem tick_lifeGrid_apply (s : Life) (rows cols i j : Int) (h : InGrid rows cols i j)
    (hl : s.lifeGrid i j = ALIVE ∨ s.lifeGrid i j = DEAD)
    (hu : s.futureStates i j = FSTATE_DEFAULT) :
    (tick s rows cols).lifeGrid i j =
      conway (s.lifeGrid i j) (countNeighbors s.lifeGrid rows cols i j) := by
  unfold tick
  simp only []
  rw [(deployNextGen_spec _ _ rows cols).2 i j, if_pos h,
    (prepareNextGen_spec _ _ rows cols).2 i j, if_pos h,
    (prepareNextGen_spec _ _ rows cols).1, hu]
  unfold staged conway
  generalize countNeighbors s.lifeGrid rows cols i j = n
  rcases hl with hl | hl <;> rw [hl] <;> simp only [ALIVE, DEAD, FSTATE_DEFAULT] <;>
    split_ifs <;> simp_all <;> omega

theorem tick_liveCells (s : Life) (rows cols : Int)
    (hl : LiveCells rows cols s.lifeGrid) (hu : AllUnset rows cols s.futureStates) :
    LiveCells rows cols (tick s rows cols).lifeGrid := by
  intro r c h
  rw [tick_lifeGrid_apply s rows cols r c h (hl r c h) (hu r c h)]
  unfold conway
  split_ifs
  · exact Or.inl rfl
  · exact Or.inr rfl

theorem tick_allUnset (s : Life) (rows cols : Int) :
    AllUnset rows cols (tick s rows cols).futureStates := by
  intro r c h
  rw [tick_futureStates_apply, if_pos h]

theorem ticks_invariant (rows cols : Int) (n : Nat) : ∀ s : Life,
    LiveCells rows cols s.lifeGrid → AllUnset rows cols s.futureStates →
    LiveCells rows cols (ticks rows cols n s).lifeGrid ∧
      AllUnset rows cols (ticks rows cols n s).futureStates := by
  induction n with
  | zero => intro s hl hu; exact ⟨hl, hu⟩
  | succ n ih =>
    intro s hl hu
    exact ih (tick s rows cols) (tick_liveCells s rows cols hl hu) (tick_allUnset s rows cols)

theorem liveCells_blinkerRow (rows cols r c : Int) : LiveCells rows cols (blinkerRow r c) := by
  intro i j _
  unfold blinkerRow
  split_ifs
  · exact Or.inl rfl
  · exact Or.inr rfl

theorem liveCells_singleCell (rows cols r c : Int) : LiveCells rows cols (singleCell r c) := by
  intro i j _
  unfold singleCell
  split_ifs
  · exact Or.inl rfl
  · exact Or.inr rfl

theorem allUnset_unsetGrid (rows cols : Int) : AllUnset rows cols unsetGrid :=
  fun _ _ _ => rfl

/-! ## A single live cell -/

theorem wrapped_inRange (n i : Int) (hn : 1 ≤ n) (hi : -1 ≤ i ∧ i ≤ n) :
    0 ≤ wrapped i n ∧ wrapped i n < n := by
  unfold wrapped
  split_ifs <;> omega

theorem torusNeighbours_eq (rows cols r c : Int) (hrows : 1 ≤ rows) (hcols : 1 ≤ cols)
    (hrc : InGrid rows cols r c) :
    torusNeighbours rows cols r c =
      [(wrapped (r - 1) rows, wrapped (c - 1) cols), (wrapped (r - 1) rows, c),
       (wrapped (r - 1) rows, wrapped (c + 1) cols), (r, wrapped (c - 1) cols),
       (r, wrapped (c + 1) cols), (wrapped (r + 1) rows, wrapped (c - 1) cols),
       (wrapped (r + 1) rows, c), (wrapped (r + 1) rows, wrapped (c + 1) cols)] := by
  obtain ⟨h1, h2, h3, h4⟩ := hrc
  have a1 := wrapped_eq_emod rows r (-1) hrows ⟨h1, h2⟩ (by simp)
  have a2 := wrapped_eq_emod rows r 0 hrows ⟨h1, h2⟩ (by simp)
  have a3 := wrapped_eq_emod rows r 1 hrows ⟨h1, h2⟩ (by simp)
  have b1 := wrapped_eq_emod cols c (-1) hcols ⟨h3, h4⟩ (by simp)
  have b2 := wrapped_eq_emod cols c 0 hcols ⟨h3, h4⟩ (by simp)
  have b3 := wrapped_eq_emod cols c 1 hcols ⟨h3, h4⟩ (by simp)
  have a2' : wrapped r rows = r := by unfold wrapped; split_ifs <;> omega
  have b2' : wrapped c cols = c := by unfold wrapped; split_ifs <;> omega
  simp only [add_zero] at a2 b2
  simp only [← sub_eq_add_neg] at a1 b1
  rw [a2'] at a2
  rw [b2'] at b2
  unfold torusNeighbours
  rw [neighbourOffsets_eq]
  simp only [List.map, ← sub_eq_add_neg, add_zero]
  rw [a1, a3, b1, b3, ← a2, ← b2]

/-- On a row axis of length at least 3 the predecessor, the index itself and the
successor are three different indices, and the shifts are mutually inverse. -/
theorem wrapped_axis (n i r : Int) (hn : 3 ≤ n) (hi : 0 ≤ i ∧ i < n) (hr : 0 ≤ r ∧ r < n) :
    (wrapped (i - 1) n = r ↔ i = wrapped (r + 1) n) ∧
    (wrapped (i + 1) n = r ↔ i = wrapped (r - 1) n) ∧
    (wrapped i n = r ↔ i = r) ∧
    wrapped (r - 1) n ≠ r ∧ wrapped (r + 1) n ≠ r ∧ wrapped (r - 1) n ≠ wrapped (r + 1) n := by
  unfold wrapped
  refine ⟨?_, ?_, ?_, ?_, ?_, ?_⟩ <;> split_ifs <;> omega


theorem aliveAt_single (rows cols r c : Int) (g : Grid)
    (hg : ∀ i j, InGrid rows cols i j → g i j = singleCell r c i j)
    (x y : Int) (hx : 0 ≤ x ∧ x < rows) (hy : 0 ≤ y ∧ y < cols) :
    aliveAt g x y = if x = r ∧ y = c then 1 else 0 := by
  unfold aliveAt
  rw [hg x y ⟨hx.1, hx.2, hy.1, hy.2⟩]
  unfold singleCell
  by_cases h : x = r ∧ y = c
  · simp [h]
  · simp [h, ALIVE, DEAD]

/-- With one live cell at `(r, c)` on a grid of at least 3 x 3, the count at an
in-grid cell is 1 on the eight torus neighbours of `(r, c)` and 0 elsewhere. -/
theorem countNeighbors_single (rows cols r c : Int) (g : Grid) (hrows : 3 ≤ rows)
    (hcols : 3 ≤ cols) (hrc : InGrid rows cols r c)
    (hg : ∀ i j, InGrid rows cols i j → g i j = singleCell r c i j)
    (i j : Int) (hij : InGrid rows cols i j) :
    countNeighbors g rows cols i j =
      if (i, j) ∈ torusNeighbours rows cols r c then 1 else 0 := by
  obtain ⟨hr1, hr2, hc1, hc2⟩ := hrc
  obtain ⟨hi1, hi2, hj1, hj2⟩ := hij
  rw [torusNeighbours_eq rows cols r c (by omega) (by omega) ⟨hr1, hr2, hc1, hc2⟩,
    countNeighbors_eq]
  have wi1 := wrapped_inRange rows (i - 1) (by omega) (by omega)
  have wi2 := wrapped_inRange rows i (by omega) (by omega)
  have wi3 := wrapped_inRange rows (i + 1) (by omega) (by omega)
  have wj1 := wrapped_inRange cols (j - 1) (by omega) (by omega)
  have wj2 := wrapped_inRange cols j (by omega) (by omega)
  have wj3 := wrapped_inRange cols (j + 1) (by omega) (by omega)
  rw [aliveAt_single rows cols r c g hg _ _ wi1 wj1, aliveAt_single rows cols r c g hg _ _ wi1 wj2,
    aliveAt_single rows cols r c g hg _ _ wi1 wj3, aliveAt_single rows cols r c g hg _ _ wi2 wj1,
    aliveAt_single rows cols r c g hg _ _ wi2 wj3, aliveAt_single rows cols r c g hg _ _ wi3 wj1,
    aliveAt_single rows cols r c g hg _ _ wi3 wj2, aliveAt_single rows cols r c g hg _ _ wi3 wj3]
  obtain ⟨a1, a2, a3, a4, a5, a6⟩ := wrapped_axis rows i r hrows ⟨hi1, hi2⟩ ⟨hr1, hr2⟩
  obtain ⟨b1, b2, b3, b4, b5, b6⟩ := wrapped_axis cols j c hcols ⟨hj1, hj2⟩ ⟨hc1, hc2⟩
  simp only [a1, a2, a3, b1, b2, b3, List.mem_cons, Prod.mk.injEq, List.mem_nil_iff, or_false]
  generalize wrapped (r - 1) rows = pr at *
  generalize wrapped (r + 1) rows = sr at *
  generalize wrapped (c - 1) cols = pc at *
  generalize wrapped (c + 1) cols = sc at *
  have a4' := a4.symm
  have a5' := a5.symm
  have a6' := a6.symm
  have b4' := b4.symm
  have b5' := b5.symm
  have b6' := b6.symm
  by_cases e1 : i = pr <;> by_cases e2 : i = r <;> by_cases e3 : i = sr <;>
  by_cases f1 : j = pc <;> by_cases f2 : j = c <;> by_cases f3 : j = sc <;>
  simp_all


theorem torusNeighbours_nodup (rows cols r c : Int) (hrows : 3 ≤ rows) (hcols : 3 ≤ cols)
    (hrc : InGrid rows cols r c) :
    (torusNeighbours rows cols r c).Nodup ∧ (torusNeighbours rows cols r c).length = 8 ∧
    (r, c) ∉ torusNeighbours rows cols r c ∧
    ∀ p ∈ torusNeighbours rows cols r c, InGrid rows cols p.1 p.2 := by
  obtain ⟨hr1, hr2, hc1, hc2⟩ := hrc
  rw [torusNeighbours_eq rows cols r c (by omega) (by omega) ⟨hr1, hr2, hc1, hc2⟩]
  obtain ⟨-, -, -, a4, a5, a6⟩ := wrapped_axis rows r r hrows ⟨hr1, hr2⟩ ⟨hr1, hr2⟩
  obtain ⟨-, -, -, b4, b5, b6⟩ := wrapped_axis cols c c hcols ⟨hc1, hc2⟩ ⟨hc1, hc2⟩
  have wi1 := wrapped_inRange rows (r - 1) (by omega) (by omega)
  have wi3 := wrapped_inRange rows (r + 1) (by omega) (by omega)
  have wj1 := wrapped_inRange cols (c - 1) (by omega) (by omega)
  have wj3 := wrapped_inRange cols (c + 1) (by omega) (by omega)
  generalize wrapped (r - 1) rows = pr at *
  generalize wrapped (r + 1) rows = sr at *
  generalize wrapped (c - 1) cols = pc at *
  generalize wrapped (c + 1) cols = sc at *
  refine ⟨?_, rfl, ?_, ?_⟩
  · simp only [List.nodup_cons, List.mem_cons, Prod.mk.injEq, List.mem_nil_iff, or_false,
      List.not_mem_nil, not_false_eq_true, List.nodup_nil, and_true]
    omega
  · simp only [List.mem_cons, Prod.mk.injEq, List.mem_nil_iff, or_false]
    omega
  · intro p hp
    simp only [List.mem_cons, List.mem_nil_iff, or_false] at hp
    unfold InGrid
    rcases hp with rfl | rfl | rfl | rfl | rfl | rfl | rfl | rfl <;> simp only [] <;> omega

/-- With one live cell the cells reporting count 1 are the eight torus neighbours,
and the counts add up to 8. -/
theorem single_sum (rows cols r c : Int) (g : Grid) (hrows : 3 ≤ rows)
    (hcols : 3 ≤ cols) (hrc : InGrid rows cols r c)
    (hg : ∀ i j, InGrid rows cols i j → g i j = singleCell r c i j) :
    cellsWithCount g rows cols 1 = (torusNeighbours rows cols r c).toFinset ∧
    sumNeighbourCounts g rows cols = 8 := by
  obtain ⟨hnd, hlen, -, hin⟩ := torusNeighbours_nodup rows cols r c hrows hcols hrc
  have hcount := countNeighbors_single rows cols r c g hrows hcols hrc hg
  have hfilter : cellsWithCount g rows cols 1 = (torusNeighbours rows cols r c).toFinset := by
    ext ⟨i, j⟩
    unfold cellsWithCount
    simp only [Finset.mem_filter, Finset.mem_product, Finset.mem_Ico, List.mem_toFinset]
    constructor
    · rintro ⟨⟨⟨h1, h2⟩, h3, h4⟩, h5⟩
      rw [hcount i j ⟨h1, h2, h3, h4⟩] at h5
      by_contra hmem
      rw [if_neg hmem] at h5
      omega
    · intro hmem
      obtain ⟨h1, h2, h3, h4⟩ := hin (i, j) hmem
      exact ⟨⟨⟨h1, h2⟩, h3, h4⟩, by rw [hcount i j ⟨h1, h2, h3, h4⟩, if_pos hmem]⟩
  refine ⟨hfilter, ?_⟩
  unfold sumNeighbourCounts
  have hsum : ∀ p ∈ Finset.Ico 0 rows ×ˢ Finset.Ico 0 cols,
      countNeighbors g rows cols p.1 p.2 =
        if countNeighbors g rows cols p.1 p.2 = 1 then 1 else 0 := by
    intro p hp
    simp only [Finset.mem_product, Finset.mem_Ico] at hp
    rw [hcount p.1 p.2 ⟨hp.1.1, hp.1.2, hp.2.1, hp.2.2⟩]
    split_ifs <;> simp_all
  rw [Finset.sum_congr rfl hsum, Finset.sum_boole]
  have : (Finset.filter (fun p : Int × Int => countNeighbors g rows cols p.1 p.2 = 1)
      (Finset.Ico 0 rows ×ˢ Finset.Ico 0 cols)) = cellsWithCount g rows cols 1 := rfl
  rw [this, hfilter, List.toFinset_card_of_nodup hnd, hlen]
  rfl

/-! ## Translation and the blinker -/

/-- `countNeighbors` only depends on the cells inside the grid. -/
theorem countNeighbors_congr (g g' : Grid) (rows cols i j : Int) (hrows : 1 ≤ rows)
    (hcols : 1 ≤ cols) (hij : InGrid rows cols i j)
    (hg : ∀ x y, InGrid rows cols x y → g x y = g' x y) :
    countNeighbors g rows cols i j = countNeighbors g' rows cols i j := by
  obtain ⟨hi1, hi2, hj1, hj2⟩ := hij
  have wi1 := wrapped_inRange rows (i - 1) hrows (by omega)
  have wi2 := wrapped_inRange rows i hrows (by omega)
  have wi3 := wrapped_inRange rows (i + 1) hrows (by omega)
  have wj1 := wrapped_inRange cols (j - 1) hcols (by omega)
  have wj2 := wrapped_inRange cols j hcols (by omega)
  have wj3 := wrapped_inRange cols (j + 1) hcols (by omega)
  have key : ∀ x y, (0 ≤ x ∧ x < rows) → (0 ≤ y ∧ y < cols) → aliveAt g x y = aliveAt g' x y := by
    intro x y hx hy
    unfold aliveAt
    rw [hg x y ⟨hx.1, hx.2, hy.1, hy.2⟩]
  rw [countNeighbors_eq, countNeighbors_eq, key _ _ wi1 wj1, key _ _ wi1 wj2, key _ _ wi1 wj3,
    key _ _ wi2 wj1, key _ _ wi2 wj3, key _ _ wi3 wj1, key _ _ wi3 wj2, key _ _ wi3 wj3]

/-- One generation acts cell by cell as `conway` on any state whose live matrix
agrees inside the grid with `g` (holding `ALIVE` or `DEAD`) and whose staging
matrix is unset. -/
theorem tick_of_agree (s : Life) (g : Grid) (rows cols : Int) (hrows : 1 ≤ rows)
    (hcols : 1 ≤ cols) (hg : ∀ x y, InGrid rows cols x y → s.lifeGrid x y = g x y)
    (hl : LiveCells rows cols g) (hu : AllUnset rows cols s.futureStates)
    (i j : Int) (hij : InGrid rows cols i j) :
    (tick s rows cols).lifeGrid i j = conway (g i j) (countNeighbors g rows cols i j) := by
  rw [tick_lifeGrid_apply s rows cols i j hij (by rw [hg i j hij]; exact hl i j hij) (hu i j hij),
    hg i j hij, countNeighbors_congr s.lifeGrid g rows cols i j hrows hcols hij hg]

theorem liveCells_blinkerCol (rows cols n r c : Int) :
    LiveCells rows cols (blinkerCol n r c) := by
  intro i j _
  unfold blinkerCol
  split_ifs
  · exact Or.inl rfl
  · exact Or.inr rfl

theorem countNeighborsSpec_shift (rows cols a b : Int) (g : Grid) (i j : Int) :
    countNeighborsSpec (shift rows cols a b g) rows cols i j =
      countNeighborsSpec g rows cols ((i + a) % rows) ((j + b) % cols) := by
  unfold countNeighborsSpec shift
  congr 2
  funext d
  have e1 : ((i + d.1) % rows + a) % rows = ((i + a) % rows + d.1) % rows := by
    rw [Int.emod_add_emod, Int.emod_add_emod]
    congr 1
    ring
  have e2 : ((j + d.2) % cols + b) % cols = ((j + b) % cols + d.2) % cols := by
    rw [Int.emod_add_emod, Int.emod_add_emod]
    congr 1
    ring
  rw [e1, e2]

/-- `countNeighbors` commutes with toroidal translation. -/
theorem countNeighbors_shift (rows cols a b : Int) (g : Grid) (i j : Int) (hrows : 1 ≤ rows)
    (hcols : 1 ≤ cols) (hij : InGrid rows cols i j) :
    countNeighbors (shift rows cols a b g) rows cols i j =
      countNeighbors g rows cols ((i + a) % rows) ((j + b) % cols) := by
  have h1 : InGrid rows cols ((i + a) % rows) ((j + b) % cols) :=
    ⟨Int.emod_nonneg _ (by omega), Int.emod_lt_of_pos _ (by omega),
      Int.emod_nonneg _ (by omega), Int.emod_lt_of_pos _ (by omega)⟩
  rw [countNeighbors_eq_countNeighborsSpec rows cols _ i j hrows hcols hij,
    countNeighbors_eq_countNeighborsSpec rows cols _ _ _ hrows hcols h1,
    countNeighborsSpec_shift]

theorem blinkerRow_base : ∀ i < 10, ∀ j < 10,
    conway (blinkerRow 5 5 (i : Nat) (j : Nat))
      (countNeighbors (blinkerRow 5 5) 10 10 (i : Nat) (j : Nat))
      = blinkerCol 10 5 5 (i : Nat) (j : Nat) := by
  decide

theorem blinkerCol_base : ∀ i < 10, ∀ j < 10,
    conway (blinkerCol 10 5 5 (i : Nat) (j : Nat))
      (countNeighbors (blinkerCol 10 5 5) 10 10 (i : Nat) (j : Nat))
      = blinkerRow 5 5 (i : Nat) (j : Nat) := by
  decide

theorem blinkerRow_eq_shift (r c i j : Int) (hr : 0 ≤ r ∧ r < 10) (hc : 1 ≤ c ∧ c ≤ 8)
    (hij : InGrid 10 10 i j) :
    blinkerRow r c i j = shift 10 10 (5 - r) (5 - c) (blinkerRow 5 5) i j := by
  obtain ⟨h1, h2, h3, h4⟩ := hij
  unfold shift blinkerRow
  have e : (i = r ∧ (j = c - 1 ∨ j = c ∨ j = c + 1)) ↔
      ((i + (5 - r)) % 10 = 5 ∧ ((j + (5 - c)) % 10 = 5 - 1 ∨ (j + (5 - c)) % 10 = 5 ∨
        (j + (5 - c)) % 10 = 5 + 1)) := by omega
  simp only [e]

theorem blinkerCol_eq_shift (r c i j : Int) (hr : 0 ≤ r ∧ r < 10) (hc : 1 ≤ c ∧ c ≤ 8)
    (hij : InGrid 10 10 i j) :
    blinkerCol 10 r c i j = shift 10 10 (5 - r) (5 - c) (blinkerCol 10 5 5) i j := by
  obtain ⟨h1, h2, h3, h4⟩ := hij
  unfold shift blinkerCol
  have e : (j = c ∧ (i = (r - 1) % 10 ∨ i = r ∨ i = (r + 1) % 10)) ↔
      ((j + (5 - c)) % 10 = 5 ∧ ((i + (5 - r)) % 10 = (5 - 1) % 10 ∨ (i + (5 - r)) % 10 = 5 ∨
        (i + (5 - r)) % 10 = (5 + 1) % 10)) := by omega
  simp only [e]


/-- Every horizontal blinker of the 10 x 10 torus turns into the vertical one. -/
theorem blinkerRow_step (r c i j : Int) (hr : 0 ≤ r ∧ r < 10) (hc : 1 ≤ c ∧ c ≤ 8)
    (hij : InGrid 10 10 i j) :
    conway (blinkerRow r c i j) (countNeighbors (blinkerRow r c) 10 10 i j)
      = blinkerCol 10 r c i j := by
  rw [countNeighbors_congr (blinkerRow r c) (shift 10 10 (5 - r) (5 - c) (blinkerRow 5 5))
      10 10 i j (by decide) (by decide) hij (fun x y h => blinkerRow_eq_shift r c x y hr hc h),
    countNeighbors_shift 10 10 (5 - r) (5 - c) (blinkerRow 5 5) i j (by decide) (by decide) hij,
    blinkerRow_eq_shift r c i j hr hc hij, blinkerCol_eq_shift r c i j hr hc hij]
  unfold shift
  have hi : 0 ≤ (i + (5 - r)) % 10 ∧ (i + (5 - r)) % 10 < 10 := by omega
  have hj : 0 ≤ (j + (5 - c)) % 10 ∧ (j + (5 - c)) % 10 < 10 := by omega
  generalize (i + (5 - r)) % 10 = x at *
  generalize (j + (5 - c)) % 10 = y at *
  obtain ⟨hx1, hx2⟩ := hi
  obtain ⟨hy1, hy2⟩ := hj
  lift x to ℕ using hx1
  lift y to ℕ using hy1
  exact blinkerRow_base x (by omega) y (by omega)

/-- Every vertical blinker of the 10 x 10 torus turns into the horizontal one. -/
theorem blinkerCol_step (r c i j : Int) (hr : 0 ≤ r ∧ r < 10) (hc : 1 ≤ c ∧ c ≤ 8)
    (hij : InGrid 10 10 i j) :
    conway (blinkerCol 10 r c i j) (countNeighbors (blinkerCol 10 r c) 10 10 i j)
      = blinkerRow r c i j := by
  rw [countNeighbors_congr (blinkerCol 10 r c) (shift 10 10 (5 - r) (5 - c) (blinkerCol 10 5 5))
      10 10 i j (by decide) (by decide) hij (fun x y h => blinkerCol_eq_shift r c x y hr hc h),
    countNeighbors_shift 10 10 (5 - r) (5 - c) (blinkerCol 10 5 5) i j (by decide) (by decide)
      hij,
    blinkerRow_eq_shift r c i j hr hc hij, blinkerCol_eq_shift r c i j hr hc hij]
  unfold shift
  have hi : 0 ≤ (i + (5 - r)) % 10 ∧ (i + (5 - r)) % 10 < 10 := by omega
  have hj : 0 ≤ (j + (5 - c)) % 10 ∧ (j + (5 - c)) % 10 < 10 := by omega
  generalize (i + (5 - r)) % 10 = x at *
  generalize (j + (5 - c)) % 10 = y at *
  obtain ⟨hx1, hx2⟩ := hi
  obtain ⟨hy1, hy2⟩ := hj
  lift x to ℕ using hx1
  lift y to ℕ using hy1
  exact blinkerCol_base x (by omega) y (by omega)

/-! ## The claims -/

/-- Claim C1: one full generation (`prepareNextGen`, `deployNextGen`,
`resetFutureStates`) implements Conway's B3/S23 rule.  For `rows, cols >= 1`, a
live matrix holding only `ALIVE`/`DEAD` and an all-unset staging matrix, after the
generation every cell of the grid is `ALIVE` iff it was `ALIVE` with 2 or 3 live
neighbours or `DEAD` with exactly 3, and is `DEAD` otherwise; a dead cell with 2
or 4 neighbours stays `DEAD`. -/
theorem tick_implements_conway (rows cols : Int) (s : Life) (_hrows : 1 ≤ rows)
    (_hcols : 1 ≤ cols) (hl : LiveCells rows cols s.lifeGrid)
    (hu : AllUnset rows cols s.futureStates) :
    ConwayStep rows cols s.lifeGrid (tick s rows cols).lifeGrid := by
  intro r c h
  rw [tick_lifeGrid_apply s rows cols r c h (hl r c h) (hu r c h)]
  generalize countNeighbors s.lifeGrid rows cols r c = n
  unfold conway
  rcases hl r c h with hc | hc <;> rw [hc] <;> simp only [ALIVE, DEAD] <;>
    refine ⟨?_, ?_, ?_⟩ <;> split_ifs <;> simp_all

theorem tick_implements_conway_witness :
    (1 : Int) ≤ 10 ∧ LiveCells 10 10 (blinkerRow 5 5) ∧ AllUnset 10 10 unsetGrid ∧
    ConwayStep 10 10 (blinkerRow 5 5)
      (tick { lifeGrid := blinkerRow 5 5, futureStates := unsetGrid } 10 10).lifeGrid :=
  ⟨by decide, liveCells_blinkerRow 10 10 5 5, allUnset_unsetGrid 10 10,
    tick_implements_conway 10 10 { lifeGrid := blinkerRow 5 5, futureStates := unsetGrid }
      (by decide) (by decide) (liveCells_blinkerRow 10 10 5 5) (allUnset_unsetGrid 10 10)⟩

/-- Claim C2: `countNeighbors` equals the modular reference definition.  For
`rows, cols >= 1` and a cell of the grid, the count is the number of offsets
`(dr, dc)` other than `(0, 0)` with `grid[(row+dr) mod rows][(col+dc) mod cols]`
equal to `ALIVE`, and for every offset the border substitution of the source
picks the same row and column index as the modulo. -/
theorem countNeighbors_refines_modular (rows cols : Int) (grid : Grid) (row col : Int)
    (hrows : 1 ≤ rows) (hcols : 1 ≤ cols) (hcell : InGrid rows cols row col) :
    countNeighbors grid rows cols row col = countNeighborsSpec grid rows cols row col ∧
    ∀ d ∈ neighbourOffsets,
      wrapped (row + d.1) rows = (row + d.1) % rows ∧
      wrapped (col + d.2) cols = (col + d.2) % cols := by
  refine ⟨countNeighbors_eq_countNeighborsSpec rows cols grid row col hrows hcols hcell, ?_⟩
  have hoff : ∀ d ∈ neighbourOffsets,
      (d.1 = -1 ∨ d.1 = 0 ∨ d.1 = 1) ∧ (d.2 = -1 ∨ d.2 = 0 ∨ d.2 = 1) := by decide
  intro d hd
  exact ⟨wrapped_eq_emod rows row d.1 hrows ⟨hcell.1, hcell.2.1⟩ (hoff d hd).1,
    wrapped_eq_emod cols col d.2 hcols ⟨hcell.2.2.1, hcell.2.2.2⟩ (hoff d hd).2⟩

theorem countNeighbors_refines_modular_witness :
    InGrid 10 10 0 9 ∧
    (countNeighbors (blinkerRow 0 8) 10 10 0 9 = countNeighborsSpec (blinkerRow 0 8) 10 10 0 9 ∧
    ∀ d ∈ neighbourOffsets,
      wrapped (0 + d.1) 10 = (0 + d.1) % 10 ∧ wrapped (9 + d.2) 10 = (9 + d.2) % 10) :=
  ⟨by decide,
    countNeighbors_refines_modular 10 10 (blinkerRow 0 8) 0 9 (by decide) (by decide) (by decide)⟩

/-- Claim C3: for `rows, cols >= 3`, any matrix contents and any cell of the grid,
`countNeighbors` returns `n` with `0 <= n <= 8`. -/
theorem countNeighbors_in_range (rows cols : Int) (grid : Grid) (row col : Int)
    (_hrows : 3 ≤ rows) (_hcols : 3 ≤ cols) (_hcell : InGrid rows cols row col) :
    0 ≤ countNeighbors grid rows cols row col ∧ countNeighbors grid rows cols row col ≤ 8 :=
  countNeighbors_bounds grid rows cols row col

theorem countNeighbors_in_range_witness :
    InGrid 3 3 2 2 ∧
    (0 ≤ countNeighbors (fun _ _ => ALIVE) 3 3 2 2 ∧
      countNeighbors (fun _ _ => ALIVE) 3 3 2 2 ≤ 8) :=
  ⟨by decide,
    countNeighbors_in_range 3 3 (fun _ _ => ALIVE) 2 2 (by decide) (by decide) (by decide)⟩

/-- Claim C4: for `rows, cols >= 3` and a grid that is `DEAD` except for one `ALIVE`
cell at `(r, c)`: the eight torus neighbours `((r+dr) mod rows, (c+dc) mod cols)`
are eight distinct cells of the grid, each with `countNeighbors` equal to 1; they
are exactly the cells with count 1; every other cell, `(r, c)` included, has
count 0; and the counts of all cells add up to 8. -/
theorem single_live_cell_counts (rows cols r c : Int) (g : Grid) (hrows : 3 ≤ rows)
    (hcols : 3 ≤ cols) (hrc : InGrid rows cols r c)
    (hg : ∀ i j, InGrid rows cols i j → g i j = singleCell r c i j) :
    (torusNeighbours rows cols r c).Nodup ∧
    (torusNeighbours rows cols r c).length = 8 ∧
    (∀ p ∈ torusNeighbours rows cols r c,
      InGrid rows cols p.1 p.2 ∧ countNeighbors g rows cols p.1 p.2 = 1) ∧
    cellsWithCount g rows cols 1 = (torusNeighbours rows cols r c).toFinset ∧
    (cellsWithCount g rows cols 1).card = 8 ∧
    (∀ i j, InGrid rows cols i j → (i, j) ∉ torusNeighbours rows cols r c →
      countNeighbors g rows cols i j = 0) ∧
    (r, c) ∉ torusNeighbours rows cols r c ∧
    countNeighbors g rows cols r c = 0 ∧
    sumNeighbourCounts g rows cols = 8 := by
  obtain ⟨hnd, hlen, hself, hin⟩ := torusNeighbours_nodup rows cols r c hrows hcols hrc
  have hcount := countNeighbors_single rows cols r c g hrows hcols hrc hg
  obtain ⟨hcells, hsum⟩ := single_sum rows cols r c g hrows hcols hrc hg
  refine ⟨hnd, hlen, ?_, hcells, ?_, ?_, hself, ?_, hsum⟩
  · intro p hp
    exact ⟨hin p hp, by rw [hcount p.1 p.2 (hin p hp), if_pos hp]⟩
  · rw [hcells, List.toFinset_card_of_nodup hnd, hlen]
  · intro i j hij hmem
    rw [hcount i j hij, if_neg hmem]
  · rw [hcount r c hrc, if_neg hself]

theorem single_live_cell_counts_witness :
    InGrid 10 10 0 9 ∧
    ((torusNeighbours 10 10 0 9).Nodup ∧
    (torusNeighbours 10 10 0 9).length = 8 ∧
    (∀ p ∈ torusNeighbours 10 10 0 9,
      InGrid 10 10 p.1 p.2 ∧ countNeighbors (singleCell 0 9) 10 10 p.1 p.2 = 1) ∧
    cellsWithCount (singleCell 0 9) 10 10 1 = (torusNeighbours 10 10 0 9).toFinset ∧
    (cellsWithCount (singleCell 0 9) 10 10 1).card = 8 ∧
    (∀ i j, InGrid 10 10 i j → (i, j) ∉ torusNeighbours 10 10 0 9 →
      countNeighbors (singleCell 0 9) 10 10 i j = 0) ∧
    (0, 9) ∉ torusNeighbours 10 10 0 9 ∧
    countNeighbors (singleCell 0 9) 10 10 0 9 = 0 ∧
    sumNeighbourCounts (singleCell 0 9) 10 10 = 8) :=
  ⟨by decide,
    single_live_cell_counts 10 10 0 9 (singleCell 0 9) (by decide) (by decide) (by decide)
      (fun _ _ _ => rfl)⟩

/-- Claim C5: `prepareNextGen` writes a sparse diff.  For a live matrix holding only
`ALIVE`/`DEAD` and any staging matrix, after `prepareNextGen` the staging cell
`(r, c)` is `ALIVE` if the live cell is `DEAD` and `n = 3`, is `DEAD` if the live
cell is `ALIVE` and `n < 2` or `n > 3`, and otherwise keeps its previous value,
`n` being `countNeighbors` on the live matrix, which the call leaves unmodified. -/
theorem prepareNextGen_sparse_diff (lifeGrid futureStates : Grid) (rows cols r c : Int)
    (_hl : LiveCells rows cols lifeGrid) (h : InGrid rows cols r c) :
    (lifeGrid r c = DEAD ∧ countNeighbors lifeGrid rows cols r c = 3 →
      (prepareNextGen lifeGrid futureStates rows cols).futureStates r c = ALIVE) ∧
    (lifeGrid r c = ALIVE ∧ (countNeighbors lifeGrid rows cols r c < 2 ∨
        countNeighbors lifeGrid rows cols r c > 3) →
      (prepareNextGen lifeGrid futureStates rows cols).futureStates r c = DEAD) ∧
    (¬ (lifeGrid r c = DEAD ∧ countNeighbors lifeGrid rows cols r c = 3) →
      ¬ (lifeGrid r c = ALIVE ∧ (countNeighbors lifeGrid rows cols r c < 2 ∨
        countNeighbors lifeGrid rows cols r c > 3)) →
      (prepareNextGen lifeGrid futureStates rows cols).futureStates r c = futureStates r c) ∧
    (prepareNextGen lifeGrid futureStates rows cols).lifeGrid = lifeGrid := by
  obtain ⟨hframe, hcells⟩ := prepareNextGen_spec lifeGrid futureStates rows cols
  rw [hcells r c, if_pos h]
  unfold staged
  refine ⟨fun h1 => ?_, fun h2 => ?_, fun h1 h2 => ?_, hframe⟩
  · rw [if_pos h1]
  · have h1 : ¬ (lifeGrid r c = DEAD ∧ countNeighbors lifeGrid rows cols r c = 3) := by
      intro h1
      rw [h2.1] at h1
      exact absurd h1.1 (by decide)
    rw [if_neg h1, if_pos h2]
  · rw [if_neg h1, if_neg h2]

theorem prepareNextGen_sparse_diff_witness :
    LiveCells 10 10 (blinkerRow 5 5) ∧ InGrid 10 10 4 5 ∧
    (prepareNextGen (blinkerRow 5 5) unsetGrid 10 10).futureStates 4 5 = ALIVE ∧
    (prepareNextGen (blinkerRow 5 5) unsetGrid 10 10).lifeGrid = blinkerRow 5 5 :=
  ⟨liveCells_blinkerRow 10 10 5 5, by decide,
    (prepareNextGen_sparse_diff (blinkerRow 5 5) unsetGrid 10 10 4 5
      (liveCells_blinkerRow 10 10 5 5) (by decide)).1 ⟨by decide, by decide⟩,
    (prepareNextGen_sparse_diff (blinkerRow 5 5) unsetGrid 10 10 4 5
      (liveCells_blinkerRow 10 10 5 5) (by decide)).2.2.2⟩

/-- Claim C6: `deployNextGen` is a conditional overwrite.  After the call a live
cell `(r, c)` of the grid equals `staging[r][c]` when that is not
`FSTATE_DEFAULT`, and keeps its previous value when it is; the staging matrix is
not changed. -/
theorem deployNextGen_conditional_overwrite (lifeGrid futureStates : Grid)
    (rows cols r c : Int) (h : InGrid rows cols r c) :
    (futureStates r c ≠ FSTATE_DEFAULT →
      (deployNextGen lifeGrid futureStates rows cols).lifeGrid r c = futureStates r c) ∧
    (futureStates r c = FSTATE_DEFAULT →
      (deployNextGen lifeGrid futureStates rows cols).lifeGrid r c = lifeGrid r c) ∧
    (deployNextGen lifeGrid futureStates rows cols).futureStates = futureStates := by
  obtain ⟨hframe, hcells⟩ := deployNextGen_spec lifeGrid futureStates rows cols
  rw [hcells r c, if_pos h]
  exact ⟨fun h1 => by rw [if_neg h1], fun h1 => by rw [if_pos h1], hframe⟩

theorem deployNextGen_conditional_overwrite_witness :
    InGrid 10 10 5 5 ∧
    (deployNextGen (blinkerRow 5 5) (singleCell 5 5) 10 10).lifeGrid 5 5 = singleCell 5 5 5 5 ∧
    (deployNextGen (blinkerRow 5 5) (singleCell 5 5) 10 10).futureStates = singleCell 5 5 :=
  ⟨by decide,
    (deployNextGen_conditional_overwrite (blinkerRow 5 5) (singleCell 5 5) 10 10 5 5
      (by decide)).1 (by decide),
    (deployNextGen_conditional_overwrite (blinkerRow 5 5) (singleCell 5 5) 10 10 5 5
      (by decide)).2.2⟩

/-- Claim C7: the generation preserves the grid invariant.  If the live matrix holds
only `ALIVE`/`DEAD` and the staging matrix is all unset, then after
`prepareNextGen` and `deployNextGen` the live matrix still holds only
`ALIVE`/`DEAD`, after `resetFutureStates` the staging matrix is all unset again,
and so both hold after any number of iterations of the loop body. -/
theorem tick_preserves_invariant (rows cols : Int) (s : Life)
    (hl : LiveCells rows cols s.lifeGrid) (hu : AllUnset rows cols s.futureStates) :
    LiveCells rows cols
      (deployNextGen (prepareNextGen s.lifeGrid s.futureStates rows cols).lifeGrid
        (prepareNextGen s.lifeGrid s.futureStates rows cols).futureStates rows cols).lifeGrid ∧
    AllUnset rows cols
      (resetFutureStates
        (deployNextGen (prepareNextGen s.lifeGrid s.futureStates rows cols).lifeGrid
          (prepareNextGen s.lifeGrid s.futureStates rows cols).futureStates
          rows cols).futureStates rows cols) ∧
    ∀ n : Nat, LiveCells rows cols (ticks rows cols n s).lifeGrid ∧
      AllUnset rows cols (ticks rows cols n s).futureStates :=
  ⟨tick_liveCells s rows cols hl hu, tick_allUnset s rows cols,
    fun n => ticks_invariant rows cols n s hl hu⟩

theorem tick_preserves_invariant_witness :
    LiveCells 10 10 (blinkerRow 5 5) ∧ AllUnset 10 10 unsetGrid ∧
    ∀ n : Nat,
      LiveCells 10 10
        (ticks 10 10 n { lifeGrid := blinkerRow 5 5, futureStates := unsetGrid }).lifeGrid ∧
      AllUnset 10 10
        (ticks 10 10 n { lifeGrid := blinkerRow 5 5, futureStates := unsetGrid }).futureStates :=
  ⟨liveCells_blinkerRow 10 10 5 5, allUnset_unsetGrid 10 10,
    (tick_preserves_invariant 10 10 { lifeGrid := blinkerRow 5 5, futureStates := unsetGrid }
      (liveCells_blinkerRow 10 10 5 5) (allUnset_unsetGrid 10 10)).2.2⟩

/-- Claim C8: the blinker oscillates with period 2.  On a 10 x 10 grid that is
`DEAD` except for `ALIVE` cells `(r, c-1)`, `(r, c)`, `(r, c+1)`, with `r` in
`[0, 10)` and `c` in `[1, 8]` and an all-unset staging matrix, one generation
yields the grid whose only `ALIVE` cells are `((r-1) mod 10, c)`, `(r, c)`,
`((r+1) mod 10, c)`, and a second generation yields the original grid. -/
theorem blinker_period_two (r c : Int) (s : Life) (hr : 0 ≤ r ∧ r < 10)
    (hc : 1 ≤ c ∧ c ≤ 8)
    (hlive : ∀ i j, InGrid 10 10 i j → s.lifeGrid i j = blinkerRow r c i j)
    (hu : AllUnset 10 10 s.futureStates) :
    (∀ i j, InGrid 10 10 i j → (tick s 10 10).lifeGrid i j = blinkerCol 10 r c i j) ∧
    (∀ i j, InGrid 10 10 i j → (tick (tick s 10 10) 10 10).lifeGrid i j = s.lifeGrid i j) := by
  have step1 : ∀ i j, InGrid 10 10 i j →
      (tick s 10 10).lifeGrid i j = blinkerCol 10 r c i j := by
    intro i j hij
    rw [tick_of_agree s (blinkerRow r c) 10 10 (by decide) (by decide) hlive
      (liveCells_blinkerRow 10 10 r c) hu i j hij]
    exact blinkerRow_step r c i j hr hc hij
  refine ⟨step1, ?_⟩
  intro i j hij
  rw [tick_of_agree (tick s 10 10) (blinkerCol 10 r c) 10 10 (by decide) (by decide) step1
    (liveCells_blinkerCol 10 10 10 r c) (tick_allUnset s 10 10) i j hij, hlive i j hij]
  exact blinkerCol_step r c i j hr hc hij

theorem blinker_period_two_witness :
    (∀ i j, InGrid 10 10 i j →
      (tick { lifeGrid := blinkerRow 5 5, futureStates := unsetGrid } 10 10).lifeGrid i j
        = blinkerCol 10 5 5 i j) ∧
    (∀ i j, InGrid 10 10 i j →
      (tick (tick { lifeGrid := blinkerRow 5 5, futureStates := unsetGrid } 10 10)
        10 10).lifeGrid i j = blinkerRow 5 5 i j) :=
  blinker_period_two 5 5 { lifeGrid := blinkerRow 5 5, futureStates := unsetGrid }
    (by decide) (by decide) (fun _ _ _ => rfl) (allUnset_unsetGrid 10 10)

/-- Claim C9: a single isolated live cell dies.  For `rows, cols >= 3`, a grid that
is `DEAD` except for one `ALIVE` cell and an all-unset staging matrix, one
generation produces a grid that is `DEAD` everywhere. -/
theorem isolated_cell_dies (rows cols r c : Int) (s : Life) (hrows : 3 ≤ rows)
    (hcols : 3 ≤ cols) (hrc : InGrid rows cols r c)
    (hlive : ∀ i j, InGrid rows cols i j → s.lifeGrid i j = singleCell r c i j)
    (hu : AllUnset rows cols s.futureStates) :
    ∀ i j, InGrid rows cols i j → (tick s rows cols).lifeGrid i j = DEAD := by
  intro i j hij
  rw [tick_of_agree s (singleCell r c) rows cols (by omega) (by omega) hlive
    (liveCells_singleCell rows cols r c) hu i j hij,
    countNeighbors_single rows cols r c (singleCell r c) hrows hcols hrc (fun _ _ _ => rfl) i j hij]
  unfold conway
  split_ifs <;> simp_all [ALIVE, DEAD]

theorem isolated_cell_dies_witness :
    InGrid 10 10 5 5 ∧
    ∀ i j, InGrid 10 10 i j →
      (tick { lifeGrid := singleCell 5 5, futureStates := unsetGrid } 10 10).lifeGrid i j
        = DEAD :=
  ⟨by decide,
    isolated_cell_dies 10 10 5 5 { lifeGrid := singleCell 5 5, futureStates := unsetGrid }
      (by decide) (by decide) (by decide) (fun _ _ _ => rfl) (allUnset_unsetGrid 10 10)⟩

/-- Claim C10: `resetFutureStates` resets everything and is idempotent.  Whatever
the staging matrix holds, after `resetFutureStates` every cell of the grid is
`FSTATE_DEFAULT`, and a second application gives the same matrix as one. -/
theorem resetFutureStates_idempotent (futureStates : Grid) (rows cols : Int) :
    AllUnset rows cols (resetFutureStates futureStates rows cols) ∧
    resetFutureStates (resetFutureStates futureStates rows cols) rows cols
      = resetFutureStates futureStates rows cols := by
  constructor
  · intro r c h
    unfold resetFutureStates
    rw [populateMatrix_apply, if_pos h]
  · funext i j
    unfold resetFutureStates
    rw [populateMatrix_apply, populateMatrix_apply]
    split_ifs <;> rfl

/-! ## The seed loader -/

theorem scanInt_ok_length (s : List Char) (v : Int) (rest : List Char)
    (h : scanInt s = ScanInt.ok v rest) : rest.length < s.length := by
  unfold scanInt at h
  have hs : (s.dropWhile isSpaceChar).length ≤ s.length :=
    (List.dropWhile_sublist isSpaceChar).length_le
  split at h
  · exact absurd h (by simp)
  · rename_i c t heq
    rw [heq] at hs
    have ht : (t.dropWhile Char.isDigit).length ≤ t.length :=
      (List.dropWhile_sublist Char.isDigit).length_le
    simp only [List.length_cons] at hs
    split_ifs at h with h1 h2 h3 h4 h5
    · simp only [ScanInt.ok.injEq] at h
      rw [← h.2]
      omega
    · simp only [ScanInt.ok.injEq] at h
      rw [← h.2]
      omega
    · simp only [ScanInt.ok.injEq] at h
      rw [← h.2]
      have hc : Char.isDigit c = true := by
        by_contra hc
        simp [List.takeWhile, hc] at h5
      simp only [List.dropWhile, hc]
      omega

theorem scanfPair_two_length (s : List Char) (a b r c : Int) (rest : List Char)
    (h : scanfPair s a b = (2, r, c, rest)) : rest.length < s.length := by
  unfold scanfPair at h
  split at h
  · simp [EOF] at h
  · simp at h
  · rename_i v in1 h1
    split at h
    · simp at h
    · simp at h
    · rename_i w in2 h2
      simp only [Prod.mk.injEq, true_and] at h
      have l1 := scanInt_ok_length _ _ _ h1
      have l2 := scanInt_ok_length _ _ _ h2
      rw [← h.2.2]
      omega

theorem validateNextChar_length (input : List Char) :
    (validateNextChar input).2.length ≤ input.length := by
  unfold validateNextChar getchar
  cases input <;> simp only [] <;> split_ifs <;> simp

theorem validateNextChar_status (input : List Char) :
    (validateNextChar input).1 = SUCCESS ∨ (validateNextChar input).1 = FAIL := by
  unfold validateNextChar
  simp only []
  split_ifs
  · exact Or.inr rfl
  · exact Or.inl rfl

/-- The loop body of `initFromFile`, case by case. -/
theorem initFromFileBody_eq (g : Grid) (rows cols : Int) (input : List Char) :
    initFromFileBody g rows cols input =
      if (scanfPair input 0 0).1 ≠ 2 then (INPUT_FAIL, g, (scanfPair input 0 0).2.2.2)
      else if (scanfPair input 0 0).2.1 = INPUT_TERMINATE ∨
          (scanfPair input 0 0).2.2.1 = INPUT_TERMINATE then
        (SUCCESS_BREAK, g, (scanfPair input 0 0).2.2.2)
      else if ¬ InGrid rows cols (scanfPair input 0 0).2.1 (scanfPair input 0 0).2.2.1 then
        (INPUT_FAIL, g, (scanfPair input 0 0).2.2.2)
      else if (validateNextChar (scanfPair input 0 0).2.2.2).1 = FAIL then
        (INPUT_FAIL, g, (validateNextChar (scanfPair input 0 0).2.2.2).2)
      else
        (SUCCESS, g.set (scanfPair input 0 0).2.1 (scanfPair input 0 0).2.2.1 ALIVE,
          (validateNextChar (scanfPair input 0 0).2.2.2).2) := by
  unfold initFromFileBody InGrid
  generalize scanfPair input 0 0 = sc
  obtain ⟨res, r, c, in1⟩ := sc
  simp only []
  have hv := validateNextChar_status in1
  generalize validateNextChar in1 = v at hv
  obtain ⟨vs, in2⟩ := v
  simp only [SUCCESS, FAIL, INPUT_FAIL, SUCCESS_BREAK, INPUT_TERMINATE] at hv ⊢
  by_cases h1 : res = 2
  · by_cases h2 : r = -1 ∨ c = -1
    · simp [h1, h2]
    · by_cases h3 : 0 ≤ r ∧ r < rows ∧ 0 ≤ c ∧ c < cols
      · have h3' : ¬ (r < 0 ∨ rows ≤ r ∨ c < 0 ∨ cols ≤ c) := by omega
        rcases hv with hv | hv <;> simp [h1, h2, h3, h3', hv]
      · have h3' : (r < 0 ∨ rows ≤ r ∨ c < 0 ∨ cols ≤ c) := by omega
        simp [h1, h2, h3, h3']
  · simp [h1]

theorem initFromFileLoop_done (rows cols : Int) (fuel : Nat) (status : Int) (g : Grid)
    (input : List Char) (h : status ≠ SUCCESS) :
    initFromFileLoop rows cols fuel status g input = some (status, g) := by
  cases fuel <;> simp [initFromFileLoop, h]

theorem initFromFileLoop_step (rows cols : Int) (fuel : Nat) (g : Grid) (input : List Char) :
    initFromFileLoop rows cols (fuel + 1) SUCCESS g input =
      initFromFileLoop rows cols fuel (initFromFileBody g rows cols input).1
        (initFromFileBody g rows cols input).2.1 (initFromFileBody g rows cols input).2.2 := by
  simp [initFromFileLoop]

theorem scanfPair_eta (input : List Char) (h : (scanfPair input 0 0).1 = 2) :
    scanfPair input 0 0 =
      (2, (scanfPair input 0 0).2.1, (scanfPair input 0 0).2.2.1, (scanfPair input 0 0).2.2.2) := by
  rw [← h]

/-- An iteration that leaves the status at `SUCCESS` has consumed input. -/
theorem initFromFileBody_length (g : Grid) (rows cols : Int) (input : List Char)
    (h : (initFromFileBody g rows cols input).1 = SUCCESS) :
    (initFromFileBody g rows cols input).2.2.length < input.length := by
  rw [initFromFileBody_eq] at h ⊢
  have l2 := validateNextChar_length (scanfPair input 0 0).2.2.2
  split_ifs at h ⊢ with h1 h2 h3 h4
  all_goals first
    | exact absurd (show INPUT_FAIL = SUCCESS from h) (by decide)
    | exact absurd (show SUCCESS_BREAK = SUCCESS from h) (by decide)
    | (have l1 := scanfPair_two_length input 0 0 _ _ _ (scanfPair_eta input (not_not.mp h1))
       simp only []
       omega)

/-- The loop of `initFromFile` ends before the iterations run out when there are
more of them than characters of input. -/
theorem initFromFileLoop_total (rows cols : Int) : ∀ (fuel : Nat) (g : Grid) (input : List Char),
    input.length < fuel → ∃ r, initFromFileLoop rows cols fuel SUCCESS g input = some r := by
  intro fuel
  induction fuel with
  | zero => intro g input h; omega
  | succ fuel ih =>
    intro g input h
    rw [initFromFileLoop_step]
    by_cases hs : (initFromFileBody g rows cols input).1 = SUCCESS
    · have hl := initFromFileBody_length g rows cols input hs
      rw [hs]
      exact ih _ _ (by omega)
    · exact ⟨_, initFromFileLoop_done rows cols fuel _ _ _ hs⟩

/-- The function `initFromFile` always returns. -/
theorem initFromFile_total (g : Grid) (rows cols : Int) (input : List Char) :
    ∃ r, initFromFile g rows cols input = some r :=
  initFromFileLoop_total rows cols (input.length + 1) g input (by omega)

theorem initFromFileLoop_succ (rows cols : Int) : ∀ (fuel : Nat) (status : Int) (g : Grid)
    (input : List Char) (r : Int × Grid),
    initFromFileLoop rows cols fuel status g input = some r →
    initFromFileLoop rows cols (fuel + 1) status g input = some r := by
  intro fuel
  induction fuel with
  | zero =>
    intro status g input r h
    by_cases hs : status = SUCCESS
    · simp [initFromFileLoop, hs] at h
    · rw [initFromFileLoop_done rows cols _ _ _ _ hs] at h ⊢
      exact h
  | succ fuel ih =>
    intro status g input r h
    by_cases hs : status = SUCCESS
    · subst hs
      rw [initFromFileLoop_step] at h ⊢
      exact ih _ _ _ _ h
    · rw [initFromFileLoop_done rows cols _ _ _ _ hs] at h ⊢
      exact h

theorem initFromFileLoop_mono (rows cols : Int) (fuel k : Nat) (status : Int) (g : Grid)
    (input : List Char) (r : Int × Grid)
    (h : initFromFileLoop rows cols fuel status g input = some r) :
    initFromFileLoop rows cols (fuel + k) status g input = some r := by
  induction k with
  | zero => exact h
  | succ k ih => exact initFromFileLoop_succ rows cols _ _ _ _ _ ih

theorem validateNextChar_of_trailer (in1 in2 : List Char) (h : Trailer in1 in2) :
    validateNextChar in1 = (SUCCESS, in2) := by
  unfold validateNextChar getchar
  rcases h with ⟨ch, rfl, hch⟩ | ⟨rfl, rfl⟩
  · simp only []
    rcases hch with hch | hch <;> simp [hch]
  · simp [EOF]

/-- An accepted pair: the iteration marks the cell and goes on. -/
theorem initFromFileBody_accept (g : Grid) (rows cols r c : Int) (input in1 in2 : List Char)
    (hs : scanfPair input 0 0 = (2, r, c, in1)) (hin : InGrid rows cols r c)
    (ht : Trailer in1 in2) :
    initFromFileBody g rows cols input = (SUCCESS, g.set r c ALIVE, in2) := by
  have hne : ¬ (r = INPUT_TERMINATE ∨ c = INPUT_TERMINATE) := by
    unfold InGrid at hin
    unfold INPUT_TERMINATE
    omega
  rw [initFromFileBody_eq, hs]
  simp only [validateNextChar_of_trailer in1 in2 ht]
  simp [hne, hin, SUCCESS, FAIL]

theorem initFromFileLoop_pairs (rows cols : Int) (cells : List (Int × Int))
    (input mid : List Char) (hp : SeedPairs rows cols cells input mid) :
    ∀ (g : Grid) (fuel : Nat),
      initFromFileLoop rows cols (fuel + cells.length) SUCCESS g input =
        initFromFileLoop rows cols fuel SUCCESS (markCells g cells) mid := by
  induction hp with
  | nil input => intro g fuel; rfl
  | cons r c cells input in1 in2 rest hs hin ht _ ih =>
    intro g fuel
    rw [List.length_cons, ← Nat.add_assoc, initFromFileLoop_step,
      initFromFileBody_accept g rows cols r c input in1 in2 hs hin ht]
    exact ih (g.set r c ALIVE) fuel

/-- After the leading pairs `initFromFile` continues from the marked matrix on the
input behind them. -/
theorem initFromFile_of_pairs (rows cols : Int) (cells : List (Int × Int))
    (input mid : List Char) (hp : SeedPairs rows cols cells input mid) (g : Grid) (fuel : Nat)
    (r : Int × Grid)
    (hmid : initFromFileLoop rows cols fuel SUCCESS (markCells g cells) mid = some r) :
    initFromFile g rows cols input = some r := by
  obtain ⟨r0, h0⟩ := initFromFile_total g rows cols input
  have h1 : initFromFileLoop rows cols (fuel + cells.length) SUCCESS g input = some r := by
    rw [initFromFileLoop_pairs rows cols cells input mid hp]
    exact hmid
  have e0 := initFromFileLoop_mono rows cols _ (fuel + cells.length) _ _ _ _ h0
  have e1 := initFromFileLoop_mono rows cols _ (input.length + 1) _ _ _ _ h1
  rw [Nat.add_comm] at e1
  rw [h0]
  rw [e0] at e1
  exact e1

/-- One more iteration whose status is not `SUCCESS` ends the loop. -/
theorem initFromFileLoop_last (rows cols : Int) (g : Grid) (input : List Char)
    (h : (initFromFileBody g rows cols input).1 ≠ SUCCESS) :
    initFromFileLoop rows cols 1 SUCCESS g input =
      some ((initFromFileBody g rows cols input).1, (initFromFileBody g rows cols input).2.1) := by
  rw [initFromFileLoop_step, initFromFileLoop_done rows cols _ _ _ _ h]

theorem markCells_apply (cells : List (Int × Int)) : ∀ (g : Grid) (i j : Int),
    markCells g cells i j = if (i, j) ∈ cells then ALIVE else g i j := by
  induction cells with
  | nil => intro g i j; simp [markCells]
  | cons p cells ih =>
    intro g i j
    obtain ⟨r, c⟩ := p
    simp only [markCells, ih, Grid.set, List.mem_cons, Prod.mk.injEq]
    by_cases h1 : (i, j) ∈ cells
    · simp [h1]
    · by_cases h2 : i = r ∧ j = c
      · simp [h1, h2]
      · simp [h1, h2]

theorem marksExactly_markCells (rows cols : Int) (cells : List (Int × Int)) (g : Grid)
    (hdead : ∀ i j, InGrid rows cols i j → g i j = DEAD) :
    MarksExactly rows cols cells (markCells g cells) := by
  intro i j hij
  rw [markCells_apply, hdead i j hij]
  by_cases h : (i, j) ∈ cells
  · simp [h]
  · simp [h, ALIVE, DEAD]

theorem createMatrix_ne_null (fails : Nat → Bool) (rows : Int) (h : Heap)
    (hf : fails h.calls = false) : (createMatrix fails rows h).1 ≠ NULL := by
  unfold createMatrix malloc
  simp [hf, NULL]

/-- When no allocation fails, `createLife` returns `INPUT_FAIL` if `initFromFile`
does and `SUCCESS` otherwise, and the live matrix is the one `initFromFile` left. -/
theorem createLife_of_init (fails : Nat → Bool) (hf : ∀ k, fails k = false) (rows cols : Int)
    (h : Heap) (garbage1 garbage2 : Grid) (input : List Char) (status : Int) (grid : Grid)
    (hi : initFromFile (populateMatrix garbage1 rows cols DEAD) rows cols input =
      some (status, grid)) :
    ∃ h', createLife fails rows cols h garbage1 garbage2 input =
      some (if status = INPUT_FAIL then INPUT_FAIL else SUCCESS,
        { lifeGrid := grid, futureStates := populateMatrix garbage2 rows cols FSTATE_DEFAULT },
        h') := by
  unfold createLife
  simp only [if_neg (createMatrix_ne_null fails rows _ (hf _)), hi]
  split_ifs <;> exact ⟨_, rfl⟩

theorem populateMatrix_dead (garbage : Grid) (rows cols : Int) :
    ∀ i j, InGrid rows cols i j → populateMatrix garbage rows cols DEAD i j = DEAD := by
  intro i j h
  rw [populateMatrix_apply, if_pos h]

theorem seedPairs_snoc (rows cols : Int) (cells : List (Int × Int)) (input mid : List Char)
    (hp : SeedPairs rows cols cells input mid) (r c : Int) (in1 in2 : List Char)
    (hs : scanfPair mid 0 0 = (2, r, c, in1)) (hin : InGrid rows cols r c)
    (ht : Trailer in1 in2) : SeedPairs rows cols (cells ++ [(r, c)]) input in2 := by
  induction hp with
  | nil input => exact SeedPairs.cons r c [] input in1 in2 in2 hs hin ht (SeedPairs.nil in2)
  | cons r' c' cells input in1' in2' rest hs' hin' ht' _ ih =>
    exact SeedPairs.cons r' c' _ input in1' in2' in2 hs' hin' ht' (ih hs)

theorem initFromFileBody_alive (g : Grid) (rows cols : Int) (input : List Char) (i j : Int)
    (h : g i j = ALIVE) : (initFromFileBody g rows cols input).2.1 i j = ALIVE := by
  rw [initFromFileBody_eq]
  split_ifs
  all_goals first
    | exact h
    | (simp only [Grid.set]
       split_ifs
       · rfl
       · exact h)

/-- The loader never clears a cell. -/
theorem initFromFileLoop_alive (rows cols : Int) : ∀ (fuel : Nat) (status : Int) (g : Grid)
    (input : List Char) (r : Int × Grid),
    initFromFileLoop rows cols fuel status g input = some r →
    ∀ i j, g i j = ALIVE → r.2 i j = ALIVE := by
  intro fuel
  induction fuel with
  | zero =>
    intro status g input r h i j hg
    by_cases hs : status = SUCCESS
    · simp [initFromFileLoop, hs] at h
    · rw [initFromFileLoop_done rows cols _ _ _ _ hs] at h
      simp only [Option.some.injEq] at h
      rw [← h]
      exact hg
  | succ fuel ih =>
    intro status g input r h i j hg
    by_cases hs : status = SUCCESS
    · subst hs
      rw [initFromFileLoop_step] at h
      exact ih _ _ _ _ h i j (initFromFileBody_alive g rows cols input i j hg)
    · rw [initFromFileLoop_done rows cols _ _ _ _ hs] at h
      simp only [Option.some.injEq] at h
      rw [← h]
      exact hg

theorem toInt32_of_range (x : Int) (h1 : -(2 ^ 31) ≤ x) (h2 : x < 2 ^ 31) : toInt32 x = x := by
  unfold toInt32
  omega

/-! ## Checked indexing never fails -/

/-- A checked loop whose body succeeds at every index of the range returns what
the unchecked loop computes. -/
theorem forLoopM_eq_some {σ : Type} (lo hi : Int) (bodyM : Int → σ → Option σ)
    (body : Int → σ → σ)
    (h : ∀ k, lo ≤ k → k < hi → ∀ t, bodyM k t = some (body k t)) (s : σ) :
    forLoopM lo hi bodyM s = some (forLoop lo hi body s) := by
  unfold forLoopM forLoop
  have key : ∀ (l : List Nat), (∀ k ∈ l, lo + (k : Int) < hi) → ∀ t : σ,
      l.foldlM (fun acc (k : Nat) => bodyM (lo + (k : Int)) acc) t =
        some (l.foldl (fun acc (k : Nat) => body (lo + (k : Int)) acc) t) := by
    intro l
    induction l with
    | nil => intro _ t; rfl
    | cons a l ih =>
      intro hl t
      rw [List.foldlM_cons, List.foldl_cons, h _ (by omega) (hl a (List.mem_cons_self a l))]
      exact ih (fun k hk => hl k (List.mem_cons_of_mem a hk)) _
  apply key
  intro k hk
  rw [List.mem_range] at hk
  omega

theorem countNeighborsChecked_eq (g : Grid) (rows cols cellRow cellCol : Int)
    (hrows : 1 ≤ rows) (hcols : 1 ≤ cols) (hcell : InGrid rows cols cellRow cellCol) :
    countNeighborsChecked g rows cols cellRow cellCol =
      some (countNeighbors g rows cols cellRow cellCol) := by
  obtain ⟨h1, h2, h3, h4⟩ := hcell
  unfold countNeighborsChecked countNeighbors
  apply forLoopM_eq_some
  intro row hr1 hr2 acc
  apply forLoopM_eq_some
  intro col hc1 hc2 acc2
  by_cases hskip : row = cellRow ∧ col = cellCol
  · rw [if_pos hskip, if_pos hskip]
  · rw [if_neg hskip, if_neg hskip]
    have wr := wrapped_inRange rows row hrows (by omega)
    have wc := wrapped_inRange cols col hcols (by omega)
    unfold wrapped at wr wc
    simp only [readCell, InGrid]
    rw [if_pos ⟨wr.1, wr.2, wc.1, wc.2⟩]
    rfl

theorem prepareCellChecked_eq (rows cols row col : Int) (s : Life) (hrows : 1 ≤ rows)
    (hcols : 1 ≤ cols) (hcell : InGrid rows cols row col) :
    prepareCellChecked rows cols row col s = some (prepareCell rows cols row col s) := by
  unfold prepareCellChecked prepareCell
  rw [countNeighborsChecked_eq s.lifeGrid rows cols row col hrows hcols hcell]
  simp only [readCell, writeCell, if_pos hcell, Option.some_bind, Option.map_some']
  split_ifs <;> simp_all

theorem deployCellChecked_eq (rows cols row col : Int) (s : Life)
    (hcell : InGrid rows cols row col) :
    deployCellChecked rows cols row col s = some (deployCell row col s) := by
  unfold deployCellChecked deployCell
  simp only [readCell, writeCell, if_pos hcell, Option.some_bind, Option.map_some']
  split_ifs <;> rfl

/-! ## The claims on loading, keys, allocation and bounds -/

/-- Claim C11: seed loading with a terminator succeeds and marks exactly the listed
cells.  When the input consists of pairs inside the grid, each followed by a
space or newline, and then a pair with a component equal to -1, `initFromFile`
on an all-`DEAD` matrix returns `SUCCESS_BREAK` with exactly the listed cells
`ALIVE`, and `createLife` (no allocation failing) returns `SUCCESS` with that
live matrix. -/
theorem seed_loading_with_terminator (rows cols : Int) (cells : List (Int × Int))
    (input mid rest : List Char) (a b : Int)
    (hp : SeedPairs rows cols cells input mid)
    (ht : scanfPair mid 0 0 = (2, a, b, rest))
    (hab : a = INPUT_TERMINATE ∨ b = INPUT_TERMINATE) :
    (∀ g : Grid, (∀ i j, InGrid rows cols i j → g i j = DEAD) →
      ∃ g', initFromFile g rows cols input = some (SUCCESS_BREAK, g') ∧
        MarksExactly rows cols cells g') ∧
    (∀ (fails : Nat → Bool) (h : Heap) (garbage1 garbage2 : Grid), (∀ k, fails k = false) →
      ∃ life h', createLife fails rows cols h garbage1 garbage2 input = some (SUCCESS, life, h') ∧
        MarksExactly rows cols cells life.lifeGrid) := by
  have hbody : ∀ g : Grid, initFromFileBody g rows cols mid = (SUCCESS_BREAK, g, rest) := by
    intro g
    rw [initFromFileBody_eq, ht]
    simp [hab]
  have hload : ∀ g : Grid, initFromFile g rows cols input =
      some (SUCCESS_BREAK, markCells g cells) := by
    intro g
    apply initFromFile_of_pairs rows cols cells input mid hp g 1
    rw [initFromFileLoop_last rows cols _ _
      (by rw [hbody]; exact (by decide : SUCCESS_BREAK ≠ SUCCESS)), hbody]
  refine ⟨fun g hdead => ⟨_, hload g, marksExactly_markCells rows cols cells g hdead⟩, ?_⟩
  intro fails h garbage1 garbage2 hf
  obtain ⟨h', hc⟩ := createLife_of_init fails hf rows cols h garbage1 garbage2 input _ _
    (hload (populateMatrix garbage1 rows cols DEAD))
  rw [if_neg (by decide)] at hc
  exact ⟨_, h', hc, marksExactly_markCells rows cols cells _
    (populateMatrix_dead garbage1 rows cols)⟩

theorem seed_loading_with_terminator_witness :
    (∃ g', initFromFile (fun _ _ => DEAD) 10 10 "5 5\n-1 -1\n".toList =
        some (SUCCESS_BREAK, g') ∧ MarksExactly 10 10 [(5, 5)] g') ∧
    (∃ life h', createLife (fun _ => false) 10 10 emptyHeap unsetGrid unsetGrid
        "5 5\n-1 -1\n".toList = some (SUCCESS, life, h') ∧
      MarksExactly 10 10 [(5, 5)] life.lifeGrid) :=
  have h := seed_loading_with_terminator 10 10 [(5, 5)] "5 5\n-1 -1\n".toList
    "-1 -1\n".toList "\n".toList (-1) (-1)
    (SeedPairs.cons 5 5 [] _ "\n-1 -1\n".toList _ _ (by decide) (by decide)
      (Or.inl ⟨_, rfl, Or.inr (by decide)⟩) (SeedPairs.nil _))
    (by decide) (Or.inl rfl)
  ⟨h.1 (fun _ _ => DEAD) (fun _ _ _ => rfl),
    h.2 (fun _ => false) emptyHeap unsetGrid unsetGrid (fun _ => rfl)⟩

/-- Claim C12, refuted as stated: on the inputs `5 5` + newline and on the empty
input, which end without a terminator pair, `initFromFile` returns `INPUT_FAIL`
and so does `createLife`. -/
theorem clean_end_of_stream_counterexample :
    (initFromFile (fun _ _ => DEAD) 10 10 "5 5\n".toList).map Prod.fst = some INPUT_FAIL ∧
    (initFromFile (fun _ _ => DEAD) 10 10 "".toList).map Prod.fst = some INPUT_FAIL ∧
    (createLife (fun _ => false) 10 10 emptyHeap unsetGrid unsetGrid "5 5\n".toList).map
      Prod.fst = some INPUT_FAIL ∧
    (createLife (fun _ => false) 10 10 emptyHeap unsetGrid unsetGrid "".toList).map
      Prod.fst = some INPUT_FAIL := by
  decide

/-- Claim C12, amended: an input made only of pairs inside the grid (possibly none),
each with an accepted trailer, that ends (up to white space) without a
terminator pair makes `initFromFile` mark exactly those cells and return
`INPUT_FAIL`, because the `scanf` at the end of the stream does not return 2;
`createLife` then returns `INPUT_FAIL`. -/
theorem seed_loading_clean_end_of_stream (rows cols : Int) (cells : List (Int × Int))
    (input mid : List Char) (hp : SeedPairs rows cols cells input mid)
    (hend : ∀ ch ∈ mid, isSpaceChar ch = true) :
    (∀ g : Grid, initFromFile g rows cols input = some (INPUT_FAIL, markCells g cells)) ∧
    (∀ g : Grid, (∀ i j, InGrid rows cols i j → g i j = DEAD) →
      MarksExactly rows cols cells (markCells g cells)) ∧
    (∀ (fails : Nat → Bool) (h : Heap) (garbage1 garbage2 : Grid), (∀ k, fails k = false) →
      ∃ life h',
        createLife fails rows cols h garbage1 garbage2 input = some (INPUT_FAIL, life, h')) := by
  have hscan : scanInt mid = ScanInt.eof := by
    unfold scanInt
    have : mid.dropWhile isSpaceChar = [] := by
      rw [List.dropWhile_eq_nil_iff]
      exact hend
    rw [this]
  have hbody : ∀ g : Grid, (initFromFileBody g rows cols mid).1 = INPUT_FAIL ∧
      (initFromFileBody g rows cols mid).2.1 = g := by
    intro g
    have hres : (scanfPair mid 0 0).1 ≠ 2 := by
      unfold scanfPair
      rw [hscan]
      decide
    rw [initFromFileBody_eq, if_pos hres]
    exact ⟨rfl, rfl⟩
  have hload : ∀ g : Grid, initFromFile g rows cols input =
      some (INPUT_FAIL, markCells g cells) := by
    intro g
    apply initFromFile_of_pairs rows cols cells input mid hp g 1
    rw [initFromFileLoop_last rows cols _ _ (by rw [(hbody _).1]; decide), (hbody _).1,
      (hbody _).2]
  refine ⟨hload, fun g hdead => marksExactly_markCells rows cols cells g hdead, ?_⟩
  intro fails h garbage1 garbage2 hf
  obtain ⟨h', hc⟩ := createLife_of_init fails hf rows cols h garbage1 garbage2 input _ _
    (hload (populateMatrix garbage1 rows cols DEAD))
  rw [if_pos rfl] at hc
  exact ⟨_, h', hc⟩

theorem seed_loading_clean_end_of_stream_witness :
    initFromFile (fun _ _ => DEAD) 10 10 "5 5\n".toList =
      some (INPUT_FAIL, markCells (fun _ _ => DEAD) [(5, 5)]) ∧
    initFromFile (fun _ _ => DEAD) 10 10 "".toList =
      some (INPUT_FAIL, markCells (fun _ _ => DEAD) []) :=
  ⟨(seed_loading_clean_end_of_stream 10 10 [(5, 5)] "5 5\n".toList [] 
      (SeedPairs.cons 5 5 [] _ "\n".toList _ _ (by decide) (by decide)
        (Or.inl ⟨_, rfl, Or.inr (by decide)⟩) (SeedPairs.nil _))
      (fun _ h => absurd h (List.not_mem_nil _))).1 _,
    (seed_loading_clean_end_of_stream 10 10 [] "".toList [] (SeedPairs.nil _)
      (fun _ h => absurd h (List.not_mem_nil _))).1 _⟩

/-- Claim C13: out-of-range seed coordinates are rejected.  A parsed pair with no
component equal to -1 and a component outside the grid makes `initFromFile`
return `INPUT_FAIL` with only the earlier pairs marked (nothing is written for
the pair), and `createLife` returns `INPUT_FAIL`. -/
theorem seed_loading_out_of_range (rows cols : Int) (cells : List (Int × Int))
    (input mid rest : List Char) (r c : Int)
    (hp : SeedPairs rows cols cells input mid)
    (hs : scanfPair mid 0 0 = (2, r, c, rest))
    (hr : r ≠ INPUT_TERMINATE) (hc : c ≠ INPUT_TERMINATE)
    (hout : r < 0 ∨ r ≥ rows ∨ c < 0 ∨ c ≥ cols) :
    (∀ g : Grid, initFromFile g rows cols input = some (INPUT_FAIL, markCells g cells)) ∧
    (∀ (fails : Nat → Bool) (h : Heap) (garbage1 garbage2 : Grid), (∀ k, fails k = false) →
      ∃ life h',
        createLife fails rows cols h garbage1 garbage2 input = some (INPUT_FAIL, life, h')) := by
  have hbody : ∀ g : Grid, initFromFileBody g rows cols mid = (INPUT_FAIL, g, rest) := by
    intro g
    have hnot : ¬ InGrid rows cols r c := by unfold InGrid; omega
    rw [initFromFileBody_eq, hs]
    simp [hr, hc, hnot]
  have hload : ∀ g : Grid, initFromFile g rows cols input =
      some (INPUT_FAIL, markCells g cells) := by
    intro g
    apply initFromFile_of_pairs rows cols cells input mid hp g 1
    rw [initFromFileLoop_last rows cols _ _
      (by rw [hbody]; exact (by decide : INPUT_FAIL ≠ SUCCESS)), hbody]
  refine ⟨hload, ?_⟩
  intro fails h garbage1 garbage2 hf
  obtain ⟨h', hc⟩ := createLife_of_init fails hf rows cols h garbage1 garbage2 input _ _
    (hload (populateMatrix garbage1 rows cols DEAD))
  rw [if_pos rfl] at hc
  exact ⟨_, h', hc⟩

theorem seed_loading_out_of_range_witness :
    initFromFile (fun _ _ => DEAD) 25 80 "100 5\n".toList =
      some (INPUT_FAIL, markCells (fun _ _ => DEAD) []) ∧
    ∃ life h', createLife (fun _ => false) 25 80 emptyHeap unsetGrid unsetGrid
      "100 5\n".toList = some (INPUT_FAIL, life, h') :=
  have h := seed_loading_out_of_range 25 80 [] "100 5\n".toList "100 5\n".toList "\n".toList
    100 5 (SeedPairs.nil _) (by decide) (by decide) (by decide) (Or.inr (Or.inl (by decide)))
  ⟨h.1 _, h.2 (fun _ => false) emptyHeap unsetGrid unsetGrid (fun _ => rfl)⟩

/-- Claim C14: a bad trailing character is rejected.  For a parsed pair inside the
grid whose second number is followed by a character other than a space (32) or
a newline (10), `initFromFile` returns `INPUT_FAIL` with only the earlier pairs
marked; when it is followed by a space, a newline or the end of the stream, the
iteration accepts the pair and the cell is `ALIVE` in the matrix that
`initFromFile` leaves. -/
theorem seed_loading_trailing_char (rows cols : Int) (cells : List (Int × Int))
    (input mid in1 : List Char) (r c : Int)
    (hp : SeedPairs rows cols cells input mid)
    (hs : scanfPair mid 0 0 = (2, r, c, in1)) (hin : InGrid rows cols r c) :
    (∀ (ch : Char) (t : List Char), in1 = ch :: t → ch.toNat ≠ 32 → ch.toNat ≠ 10 →
      ∀ g : Grid, initFromFile g rows cols input = some (INPUT_FAIL, markCells g cells)) ∧
    (∀ in2 : List Char, Trailer in1 in2 → ∀ g : Grid,
      initFromFileBody (markCells g cells) rows cols mid =
        (SUCCESS, (markCells g cells).set r c ALIVE, in2) ∧
      ∃ status g', initFromFile g rows cols input = some (status, g') ∧ g' r c = ALIVE) := by
  have hne : ¬ (r = INPUT_TERMINATE ∨ c = INPUT_TERMINATE) := by
    unfold InGrid at hin
    unfold INPUT_TERMINATE
    omega
  constructor
  · intro ch t hin1 h32 h10 g
    have hv : validateNextChar in1 = (FAIL, t) := by
      unfold validateNextChar getchar
      rw [hin1]
      have h1 : ((ch.toNat : Nat) : Int) ≠ 32 := by omega
      have h2 : ((ch.toNat : Nat) : Int) ≠ 10 := by omega
      have h3 : ((ch.toNat : Nat) : Int) ≠ EOF := by unfold EOF; omega
      simp [h1, h2, h3]
    have hbody : initFromFileBody (markCells g cells) rows cols mid =
        (INPUT_FAIL, markCells g cells, t) := by
      rw [initFromFileBody_eq, hs]
      simp [hne, hin, hv]
    apply initFromFile_of_pairs rows cols cells input mid hp g 1
    rw [initFromFileLoop_last rows cols _ _
      (by rw [hbody]; exact (by decide : INPUT_FAIL ≠ SUCCESS)), hbody]
  · intro in2 ht g
    refine ⟨initFromFileBody_accept _ rows cols r c mid in1 in2 hs hin ht, ?_⟩
    have hp2 := seedPairs_snoc rows cols cells input mid hp r c in1 in2 hs hin ht
    obtain ⟨res, hres⟩ := initFromFileLoop_total rows cols (in2.length + 1)
      (markCells g (cells ++ [(r, c)])) in2 (by omega)
    refine ⟨res.1, res.2, initFromFile_of_pairs rows cols _ input in2 hp2 g _ res hres, ?_⟩
    apply initFromFileLoop_alive rows cols _ _ _ _ _ hres
    rw [markCells_apply, if_pos (by simp)]

theorem seed_loading_trailing_char_witness :
    initFromFile (fun _ _ => DEAD) 10 10 "5 5x\n".toList =
      some (INPUT_FAIL, markCells (fun _ _ => DEAD) []) ∧
    ∃ status g', initFromFile (fun _ _ => DEAD) 10 10 "5 5\n".toList = some (status, g') ∧
      g' 5 5 = ALIVE :=
  have h := seed_loading_trailing_char 10 10 [] "5 5x\n".toList "5 5x\n".toList "x\n".toList
    5 5 (SeedPairs.nil _) (by decide) (by decide)
  have h' := seed_loading_trailing_char 10 10 [] "5 5\n".toList "5 5\n".toList "\n".toList
    5 5 (SeedPairs.nil _) (by decide) (by decide)
  ⟨h.1 _ _ rfl (by decide) (by decide) _,
    (h'.2 [] (Or.inl ⟨_, rfl, Or.inr (by decide)⟩) _).2⟩

/-- Claim C15: `handleKey` adjusts the tick delay by one step of 20, clamped at
zero.  For a delay `d >= 0` with `d + 20` representable as an `int`, the new
delay is `max (d - 20) 0` for the speed-up key, `d + 20` for the speed-down key
and `d` for every other key; so it is never negative. -/
theorem handleKey_delay (d key : Int) (hd : 0 ≤ d) (hrep : d + 20 ≤ 2 ^ 31 - 1) :
    (key = SPEED_UP → (handleKey d key).2 = max (d - 20) 0) ∧
    (key = SPEED_DOWN → (handleKey d key).2 = d + 20) ∧
    (key ≠ SPEED_UP → key ≠ SPEED_DOWN → (handleKey d key).2 = d) ∧
    0 ≤ (handleKey d key).2 := by
  have e1 : toInt32 (d - 20) = d - 20 := toInt32_of_range _ (by omega) (by omega)
  have e2 : toInt32 (d + 20) = d + 20 := toInt32_of_range _ (by omega) (by omega)
  unfold handleKey
  simp only [TIME_DELTA, e1, e2, SPEED_UP, SPEED_DOWN, TERMINATE_KEY]
  refine ⟨?_, ?_, ?_, ?_⟩
  · intro h
    subst h
    simp only [show ¬ ((97 : Int) = 32) by decide, if_false, if_true]
    split_ifs <;> simp only [] <;> omega
  · intro h
    subst h
    simp only [show ¬ ((122 : Int) = 32) by decide, show ¬ ((122 : Int) = 97) by decide,
      if_false, if_true]
  · intro h1 h2
    simp only [h1, h2, if_false]
    split_ifs <;> rfl
  · split_ifs <;> simp only [] <;> omega

theorem handleKey_delay_witness :
    (handleKey 10 SPEED_UP).2 = max (10 - 20) 0 ∧ (handleKey 10 SPEED_DOWN).2 = 10 + 20 ∧
    (handleKey 10 TERMINATE_KEY).2 = 10 ∧ (handleKey 10 65).2 = 10 ∧
    (handleKey 10 90).2 = 10 ∧ (handleKey 10 ERR).2 = 10 :=
  ⟨(handleKey_delay 10 SPEED_UP (by decide) (by decide)).1 rfl,
    (handleKey_delay 10 SPEED_DOWN (by decide) (by decide)).2.1 rfl,
    (handleKey_delay 10 TERMINATE_KEY (by decide) (by decide)).2.2.1 (by decide) (by decide),
    (handleKey_delay 10 65 (by decide) (by decide)).2.2.1 (by decide) (by decide),
    (handleKey_delay 10 90 (by decide) (by decide)).2.2.1 (by decide) (by decide),
    (handleKey_delay 10 ERR (by decide) (by decide)).2.2.1 (by decide) (by decide)⟩

/-- Claim C16, evaluated on the code: `createMatrix` returns `NULL` only when the
allocation of the row index itself fails.  With 3 rows, the row index and row 0
allocated and the allocation of row 1 failing, it releases every block and still
returns the non-null pointer to the released row index, and `createLife` goes on
to return `SUCCESS` instead of `ERROR_NOMEMORY`. -/
theorem createMatrix_row_failure :
    (∀ (fails : Nat → Bool) (rows : Int) (h : Heap),
      (createMatrix fails rows h).1 = if fails h.calls then NULL else h.calls + 1) ∧
    (createMatrix (fun k => k == 2) 3 emptyHeap).1 ≠ NULL ∧
    (createMatrix (fun k => k == 2) 3 emptyHeap).2.live = [] ∧
    (createLife (fun k => k == 2) 3 3 emptyHeap unsetGrid unsetGrid "-1 -1".toList).map
      Prod.fst = some SUCCESS := by
  refine ⟨?_, by decide, by decide, by decide⟩
  intro fails rows h
  unfold createMatrix malloc
  split_ifs <;> simp_all [NULL]

/-- Claim C17: on a one-row grid a cell is counted several times through the
wrap.  For `cols >= 3`, any `1 x cols` grid and any column `c`, the count at
`(0, c)` is twice the cell itself plus three times each horizontal neighbour. -/
theorem countNeighbors_one_row (cols : Int) (g : Grid) (c : Int) (hcols : 3 ≤ cols)
    (hc : 0 ≤ c ∧ c < cols) :
    countNeighbors g 1 cols 0 c =
      2 * aliveAt g 0 c + 3 * aliveAt g 0 ((c - 1) % cols) + 3 * aliveAt g 0 ((c + 1) % cols) := by
  have a1 : wrapped (0 - 1) 1 = 0 := by decide
  have a2 : wrapped 0 1 = 0 := by decide
  have a3 : wrapped (0 + 1) 1 = 0 := by decide
  have b1 := wrapped_eq_emod cols c (-1) (by omega) hc (by simp)
  have b3 := wrapped_eq_emod cols c 1 (by omega) hc (by simp)
  have b2 : wrapped c cols = c := by unfold wrapped; split_ifs <;> omega
  simp only [← sub_eq_add_neg] at b1
  rw [countNeighbors_eq, a1, a2, a3, b1, b2, b3]
  ring

theorem countNeighbors_one_row_witness :
    countNeighbors (singleCell 0 0) 1 3 0 0 = 2 ∧ countNeighbors (singleCell 0 0) 1 3 0 1 = 3 :=
  ⟨by
    have h := countNeighbors_one_row 3 (singleCell 0 0) 0 (by decide) (by decide)
    rw [h]; decide,
   by
    have h := countNeighbors_one_row 3 (singleCell 0 0) 1 (by decide) (by decide)
    rw [h]; decide⟩

/-- Claim C18, refuted as stated: on a 26 x 81 display the check accepts a
25 x 80 board although the display has fewer than `rows + 3` lines and fewer than
`cols + 5` columns. -/
theorem windowSizeCheck_frame_counterexample :
    ¬ (windowSizeCheck 26 81 25 80 = SUCCESS → (26 : Int) ≥ 25 + 3 ∧ (81 : Int) ≥ 80 + 5) := by
  decide

/-- Claim C18, amended: `windowSizeCheck` returns `SUCCESS` exactly when the
display is strictly larger than the board in both directions, so success
guarantees `winRows >= rows + 1` and `winCols >= cols + 1` (and nothing more);
otherwise it returns `WIN_SIZE_ERROR`. -/
theorem windowSizeCheck_success (winRows winCols rows cols : Int) :
    (windowSizeCheck winRows winCols rows cols = SUCCESS ↔
      winRows ≥ rows + 1 ∧ winCols ≥ cols + 1) ∧
    (windowSizeCheck winRows winCols rows cols = SUCCESS ∨
      windowSizeCheck winRows winCols rows cols = WIN_SIZE_ERROR) := by
  unfold windowSizeCheck
  simp only [SUCCESS, WIN_SIZE_ERROR]
  split_ifs with h
  · refine ⟨⟨fun h0 => absurd h0 (by decide), fun h0 => by omega⟩, Or.inr rfl⟩
  · exact ⟨⟨fun _ => by omega, fun _ => rfl⟩, Or.inl rfl⟩

/-- Claim C19: grid indexing in the generation engine is always in bounds.  For
`rows, cols >= 1` and a cell of the grid, each of the 8 index pairs that
`countNeighbors` reads lies inside the grid, so the checked `countNeighbors`
never takes its out-of-range branch; and the checked `prepareNextGen` and
`deployNextGen` return what the unchecked ones compute, for any contents. -/
theorem indexing_in_bounds (rows cols : Int) (lifeGrid futureStates : Grid)
    (hrows : 1 ≤ rows) (hcols : 1 ≤ cols) :
    (∀ cellRow cellCol, InGrid rows cols cellRow cellCol →
      (∀ d ∈ neighbourOffsets,
        InGrid rows cols (wrapped (cellRow + d.1) rows) (wrapped (cellCol + d.2) cols)) ∧
      countNeighborsChecked lifeGrid rows cols cellRow cellCol =
        some (countNeighbors lifeGrid rows cols cellRow cellCol)) ∧
    prepareNextGenChecked lifeGrid futureStates rows cols =
      some (prepareNextGen lifeGrid futureStates rows cols) ∧
    deployNextGenChecked lifeGrid futureStates rows cols =
      some (deployNextGen lifeGrid futureStates rows cols) := by
  refine ⟨?_, ?_, ?_⟩
  · intro cellRow cellCol hcell
    refine ⟨?_, countNeighborsChecked_eq lifeGrid rows cols cellRow cellCol hrows hcols hcell⟩
    have hoff : ∀ d ∈ neighbourOffsets,
        (d.1 = -1 ∨ d.1 = 0 ∨ d.1 = 1) ∧ (d.2 = -1 ∨ d.2 = 0 ∨ d.2 = 1) := by decide
    intro d hd
    obtain ⟨h1, h2, h3, h4⟩ := hcell
    have wr := wrapped_inRange rows (cellRow + d.1) hrows (by have := (hoff d hd).1; omega)
    have wc := wrapped_inRange cols (cellCol + d.2) hcols (by have := (hoff d hd).2; omega)
    exact ⟨wr.1, wr.2, wc.1, wc.2⟩
  · unfold prepareNextGenChecked prepareNextGen
    apply forLoopM_eq_some
    intro row hr1 hr2 s
    apply forLoopM_eq_some
    intro col hc1 hc2 t
    exact prepareCellChecked_eq rows cols row col t hrows hcols ⟨hr1, hr2, hc1, hc2⟩
  · unfold deployNextGenChecked deployNextGen
    apply forLoopM_eq_some
    intro row hr1 hr2 s
    apply forLoopM_eq_some
    intro col hc1 hc2 t
    exact deployCellChecked_eq rows cols row col t ⟨hr1, hr2, hc1, hc2⟩

theorem indexing_in_bounds_witness :
    (∀ cellRow cellCol, InGrid 10 10 cellRow cellCol →
      (∀ d ∈ neighbourOffsets,
        InGrid 10 10 (wrapped (cellRow + d.1) 10) (wrapped (cellCol + d.2) 10)) ∧
      countNeighborsChecked (blinkerRow 5 5) 10 10 cellRow cellCol =
        some (countNeighbors (blinkerRow 5 5) 10 10 cellRow cellCol)) ∧
    prepareNextGenChecked (blinkerRow 5 5) unsetGrid 10 10 =
      some (prepareNextGen (blinkerRow 5 5) unsetGrid 10 10) ∧
    deployNextGenChecked (blinkerRow 5 5) unsetGrid 10 10 =
      some (deployNextGen (blinkerRow 5 5) unsetGrid 10 10) :=
  indexing_in_bounds 10 10 (blinkerRow 5 5) unsetGrid (by decide) (by decide)

/-- Claim C20: one generation commutes with toroidal translation.  For
`rows, cols >= 1`, a grid of `ALIVE`/`DEAD` cells and any shift `(a, b)`, a
generation run on the shifted grid gives, on every cell of the grid, the shifted
result of a generation run on the grid itself. -/
theorem tick_commutes_with_shift (rows cols a b : Int) (g : Grid) (hrows : 1 ≤ rows)
    (hcols : 1 ≤ cols) (hl : LiveCells rows cols g) :
    ∀ i j, InGrid rows cols i j →
      (tick { lifeGrid := shift rows cols a b g, futureStates := unsetGrid } rows cols).lifeGrid
          i j
        = shift rows cols a b
            (tick { lifeGrid := g, futureStates := unsetGrid } rows cols).lifeGrid i j := by
  intro i j hij
  have hin : InGrid rows cols ((i + a) % rows) ((j + b) % cols) :=
    ⟨Int.emod_nonneg _ (by omega), Int.emod_lt_of_pos _ (by omega),
      Int.emod_nonneg _ (by omega), Int.emod_lt_of_pos _ (by omega)⟩
  have hls : LiveCells rows cols (shift rows cols a b g) := by
    intro x y _
    exact hl _ _ ⟨Int.emod_nonneg _ (by omega), Int.emod_lt_of_pos _ (by omega),
      Int.emod_nonneg _ (by omega), Int.emod_lt_of_pos _ (by omega)⟩
  rw [tick_of_agree _ (shift rows cols a b g) rows cols hrows hcols (fun _ _ _ => rfl) hls
      (allUnset_unsetGrid rows cols) i j hij,
    countNeighbors_shift rows cols a b g i j hrows hcols hij]
  show _ = (tick { lifeGrid := g, futureStates := unsetGrid } rows cols).lifeGrid
    ((i + a) % rows) ((j + b) % cols)
  rw [tick_of_agree _ g rows cols hrows hcols (fun _ _ _ => rfl) hl
      (allUnset_unsetGrid rows cols) _ _ hin]
  rfl

theorem tick_commutes_with_shift_witness :
    LiveCells 10 10 (blinkerRow 5 5) ∧
    ∀ i j, InGrid 10 10 i j →
      (tick { lifeGrid := shift 10 10 3 7 (blinkerRow 5 5), futureStates := unsetGrid }
          10 10).lifeGrid i j
        = shift 10 10 3 7
            (tick { lifeGrid := blinkerRow 5 5, futureStates := unsetGrid } 10 10).lifeGrid i j :=
  ⟨liveCells_blinkerRow 10 10 5 5,
    tick_commutes_with_shift 10 10 3 7 (blinkerRow 5 5) (by decide) (by decide)
      (liveCells_blinkerRow 10 10 5 5)⟩

end GameOfLife
